import Mathlib

/-!
Verification of the meetbot recording server (TypeScript sources under
`src/server/`) against its natural-language specification.

The development shallowly embeds the relevant code:

* `src/server/audio.ts` — `convertFloat32ToInt16`, `createWaveHeader`,
  `WavWriter` (buffers are `List ℕ` of byte values, IEEE-754 binary32
  values are decoded exactly into `Option ℚ`, `none` marking the
  non-finite values NaN/±∞; JavaScript `Math.round` is exact
  half-up rounding on the exact rational arguments that occur here).
* `src/server/session.ts` — the per-connection session state machine
  (`handleMessage` / `dispatch` / pending-audio buffering / participant
  labelling).  File-system, logging and wall-clock/timer effects are not
  modelled; a thrown-and-caught JavaScript exception is modelled by an
  explicit success flag so that partial state mutation before a throw is
  kept, exactly as in the source.
* `src/server/deepgram-service.ts` — `summarizeText`,
  `generateCustomSummary` and the keyword extractors; the external
  OpenAI call is abstracted as an `Option SummaryResult` outcome
  (`none` = the call threw).
-/

/-! ## JavaScript number / byte primitives -/

/-- JavaScript `Math.round` on an exactly-represented rational argument:
round half toward positive infinity. -/
def jsRound (q : ℚ) : ℤ := ⌊q + 1/2⌋

/-- `Math.max(-1, Math.min(1, q))` from `convertFloat32ToInt16`. -/
def jsClampUnit (q : ℚ) : ℚ := max (-1) (min 1 q)

/-- `buffer.readInt32LE(0)` on the first four bytes of a frame. -/
def readInt32LE (m : List ℕ) : ℤ :=
  let u : ℕ := m.getD 0 0 % 256 + 256 * (m.getD 1 0 % 256) +
    65536 * (m.getD 2 0 % 256) + 16777216 * (m.getD 3 0 % 256)
  if u < 2 ^ 31 then (u : ℤ) else (u : ℤ) - 2 ^ 32

/-- The two's-complement unsigned image of a signed 16-bit value, as
stored by `buffer.writeInt16LE`. -/
def int16ToUInt16 (z : ℤ) : ℕ := (z % 65536).toNat

/-- Little-endian byte pair written by `buffer.writeInt16LE`. -/
def int16LEBytes (z : ℤ) : List ℕ :=
  [int16ToUInt16 z % 256, int16ToUInt16 z / 256]

lemma getD_cons2 {α : Type _} (a b : α) (l : List α) (m : ℕ) (d : α) :
    (a :: b :: l).getD (m + 2) d = l.getD m d := by
  rw [show m + 2 = (m + 1) + 1 by ring]
  simp only [List.getD_cons_succ]

lemma getD_cons4 {α : Type _} (a b c e : α) (l : List α) (m : ℕ) (d : α) :
    (a :: b :: c :: e :: l).getD (m + 4) d = l.getD m d := by
  rw [show m + 4 = (((m + 1) + 1) + 1) + 1 by ring]
  simp only [List.getD_cons_succ]

/-! ## `src/server/audio.ts`: Float32 → Int16 conversion -/

/-- Exact value of the IEEE-754 binary32 number stored little-endian in
bytes `b0 b1 b2 b3` (the read performed by `floatBuffer.readFloatLE`),
with `none` for the values on which `Number.isFinite` is false
(NaN and ±∞).  Finite binary32 values are exact rationals. -/
def decodeFloat32LE (b0 b1 b2 b3 : ℕ) : Option ℚ :=
  let bits : ℕ := b0 % 256 + 256 * (b1 % 256) + 65536 * (b2 % 256) +
    16777216 * (b3 % 256)
  let sign : ℚ := if bits / 2 ^ 31 % 2 = 1 then -1 else 1
  let e : ℕ := bits / 2 ^ 23 % 256
  let m : ℕ := bits % 2 ^ 23
  if e = 255 then none
  else if e = 0 then some (sign * m / 2 ^ 149)
  else some (sign * (2 ^ 23 + m) * 2 ^ e / 2 ^ 150)

/-- One loop iteration of `convertFloat32ToInt16`: read the float, zero
it if not finite, clamp to `[-1, 1]`, multiply by `0x7fff` and round.
The multiplication is exact in double precision (≤ 39 significand bits),
so the JavaScript computation coincides with this exact one. -/
def int16SampleOfBytes (b0 b1 b2 b3 : ℕ) : ℤ :=
  jsRound (jsClampUnit ((decodeFloat32LE b0 b1 b2 b3).getD 0) * 32767)

/-- The loop body of `convertFloat32ToInt16`, consuming the input four
bytes at a time and emitting two bytes per sample. -/
def convertF32Go : List ℕ → List ℕ
  | b0 :: b1 :: b2 :: b3 :: rest =>
      int16LEBytes (int16SampleOfBytes b0 b1 b2 b3) ++ convertF32Go rest
  | _ => []

/-- `convertFloat32ToInt16(floatBuffer)` from `src/server/audio.ts`.
When the input length is not a multiple of 4 the JavaScript code throws
(`Buffer.alloc` with a fractional size for odd lengths, `readFloatLE`
past the end for lengths ≡ 2 mod 4), in either case before any
observable effect; this is modelled by `none`. -/
def convertFloat32ToInt16 (floatBuffer : List ℕ) : Option (List ℕ) :=
  if floatBuffer.length % 4 = 0 then some (convertF32Go floatBuffer) else none

/-- The per-sample value as the specification words it: `round(clamp(f,
-1, 1) * 32767)` for a finite float `f`, and `0` for NaN/±∞. -/
def specSampleValue (f : Option ℚ) : ℤ :=
  match f with
  | none => 0
  | some q => jsRound (jsClampUnit q * 32767)

lemma int16SampleOfBytes_eq_spec (b0 b1 b2 b3 : ℕ) :
    int16SampleOfBytes b0 b1 b2 b3 =
      specSampleValue (decodeFloat32LE b0 b1 b2 b3) := by
  unfold int16SampleOfBytes specSampleValue
  cases decodeFloat32LE b0 b1 b2 b3 with
  | none =>
      simp only [Option.getD_none, jsClampUnit, jsRound]
      norm_num
  | some q => rfl

lemma convertF32Go_cons4 (b0 b1 b2 b3 : ℕ) (rest : List ℕ) :
    convertF32Go (b0 :: b1 :: b2 :: b3 :: rest) =
      int16ToUInt16 (int16SampleOfBytes b0 b1 b2 b3) % 256 ::
      int16ToUInt16 (int16SampleOfBytes b0 b1 b2 b3) / 256 ::
      convertF32Go rest :=
  rfl

/-- The two spec-side bytes of sample `i` of input `bs`. -/
def specSampleBytes (bs : List ℕ) (i : ℕ) : List ℕ :=
  int16LEBytes (specSampleValue (decodeFloat32LE
    (bs.getD (4 * i) 0) (bs.getD (4 * i + 1) 0)
    (bs.getD (4 * i + 2) 0) (bs.getD (4 * i + 3) 0)))

lemma specSampleBytes_cons4 (b0 b1 b2 b3 : ℕ) (rest : List ℕ) (j : ℕ) :
    specSampleBytes (b0 :: b1 :: b2 :: b3 :: rest) (j + 1) =
      specSampleBytes rest j := by
  unfold specSampleBytes
  rw [show 4 * (j + 1) = 4 * j + 4 by ring,
    show 4 * j + 4 + 1 = (4 * j + 1) + 4 by ring,
    show 4 * j + 4 + 2 = (4 * j + 2) + 4 by ring,
    show 4 * j + 4 + 3 = (4 * j + 3) + 4 by ring]
  simp only [getD_cons4]

lemma convertF32Go_spec :
    ∀ (n : ℕ) (bs : List ℕ), bs.length = 4 * n →
      (convertF32Go bs).length = 2 * n ∧
      ∀ i, i < n →
        (convertF32Go bs).getD (2 * i) 0 = (specSampleBytes bs i).getD 0 0 ∧
        (convertF32Go bs).getD (2 * i + 1) 0 = (specSampleBytes bs i).getD 1 0 := by
  intro n
  induction n with
  | zero =>
      intro bs h
      have hbs : bs = [] := List.length_eq_zero.mp (by simpa using h)
      subst hbs
      exact ⟨rfl, fun i hi => absurd hi (Nat.not_lt_zero i)⟩
  | succ k ih =>
      intro bs h
      match bs with
      | [] => simp [Nat.mul_succ] at h
      | [b0] => simp [Nat.mul_succ] at h
      | [b0, b1] => simp [Nat.mul_succ] at h
      | [b0, b1, b2] => simp [Nat.mul_succ] at h
      | b0 :: b1 :: b2 :: b3 :: rest =>
          have hrest : rest.length = 4 * k := by
            simp [Nat.mul_succ] at h; omega
          obtain ⟨hlen, hidx⟩ := ih rest hrest
          rw [convertF32Go_cons4]
          refine ⟨by simp [hlen]; omega, ?_⟩
          intro i hi
          cases i with
          | zero =>
              constructor
              · simp [specSampleBytes, int16LEBytes, int16SampleOfBytes_eq_spec]
              · simp [specSampleBytes, int16LEBytes, int16SampleOfBytes_eq_spec]
          | succ j =>
              have hj : j < k := Nat.lt_of_succ_lt_succ hi
              obtain ⟨h1, h2⟩ := hidx j hj
              rw [specSampleBytes_cons4]
              constructor
              · rw [show 2 * (j + 1) = 2 * j + 2 by ring, getD_cons2, h1]
              · rw [show 2 * (j + 1) + 1 = (2 * j + 1) + 2 by ring, getD_cons2, h2]

/-- **C1.** For every input buffer whose length is a multiple of 4,
`convertFloat32ToInt16` succeeds and returns a buffer of exactly half
the input length in which, for each 4-byte little-endian float `f` read
at offset `4*i`, the 16-bit little-endian signed sample at offset `2*i`
equals `round(clamp(f, -1, 1) * 32767)`, and equals `0` whenever `f` is
NaN or infinite (`decodeFloat32LE = none`, giving `specSampleValue 0`). -/
theorem convertFloat32ToInt16_correct (bs : List ℕ) (h : bs.length % 4 = 0) :
    ∃ out, convertFloat32ToInt16 bs = some out ∧
      out.length = bs.length / 2 ∧
      ∀ i, i < bs.length / 4 →
        out.getD (2 * i) 0 = (specSampleBytes bs i).getD 0 0 ∧
        out.getD (2 * i + 1) 0 = (specSampleBytes bs i).getD 1 0 := by
  have hn : bs.length = 4 * (bs.length / 4) := by omega
  obtain ⟨hlen, hidx⟩ := convertF32Go_spec (bs.length / 4) bs hn
  refine ⟨convertF32Go bs, by simp [convertFloat32ToInt16, h], ?_, hidx⟩
  rw [hlen]; omega

/-- Witness for C1 at the concrete buffer holding the float `1.0`
(bytes `[0, 0, 128, 63]`): the output is the single sample `32767`
encoded little-endian, i.e. bytes `[255, 127]`. -/
theorem convertFloat32ToInt16_correct_witness :
    ([0, 0, 128, 63] : List ℕ).length % 4 = 0 ∧
    ∃ out, convertFloat32ToInt16 [0, 0, 128, 63] = some out ∧
      out.length = ([0, 0, 128, 63] : List ℕ).length / 2 ∧
      ∀ i, i < ([0, 0, 128, 63] : List ℕ).length / 4 →
        out.getD (2 * i) 0 = (specSampleBytes [0, 0, 128, 63] i).getD 0 0 ∧
        out.getD (2 * i + 1) 0 = (specSampleBytes [0, 0, 128, 63] i).getD 1 0 :=
  ⟨by decide, convertFloat32ToInt16_correct [0, 0, 128, 63] (by decide)⟩

/-! ## `src/server/audio.ts`: `createWaveHeader` and `WavWriter`

`Buffer.alloc(44)` is a list of 44 zero bytes; `header.write(str, off)`
and `header.writeUIntNNLE(v, off)` set byte ranges in place.  Node's
`writeUInt16LE`/`writeUInt32LE` throw when the value is out of range;
this is modelled by `Option`. -/

/-- The little-endian byte pair of an in-range `writeUInt16LE` value. -/
def zbytes2 (v : ℤ) : List ℕ := [(v % 256).toNat, (v / 256 % 256).toNat]

/-- The little-endian byte quadruple of an in-range `writeUInt32LE`
value. -/
def zbytes4 (v : ℤ) : List ℕ :=
  [(v % 256).toNat, (v / 256 % 256).toNat, (v / 65536 % 256).toNat,
   (v / 16777216 % 256).toNat]

/-- `buffer.writeUInt16LE(v, off)` validates `0 ≤ v < 2^16` (throwing
otherwise) and stores two bytes. -/
def writeUInt16LEBytes (v : ℤ) : Option (List ℕ) :=
  if 0 ≤ v ∧ v < 65536 then some (zbytes2 v) else none

/-- `buffer.writeUInt32LE(v, off)` validates `0 ≤ v < 2^32` (throwing
otherwise) and stores four bytes. -/
def writeUInt32LEBytes (v : ℤ) : Option (List ℕ) :=
  if 0 ≤ v ∧ v < 4294967296 then some (zbytes4 v) else none

/-- Store the bytes `b` into `buf` starting at offset `off`
(the in-place writes performed on the header buffer). -/
def setBytes : List ℕ → ℕ → List ℕ → List ℕ
  | buf, _, [] => buf
  | buf, off, b :: bs => setBytes (buf.set off b) (off + 1) bs

lemma setBytes_length (b : List ℕ) :
    ∀ (buf : List ℕ) (off : ℕ), (setBytes buf off b).length = buf.length := by
  induction b with
  | nil => intro buf off; rfl
  | cons x bs ih =>
      intro buf off
      show (setBytes (buf.set off x) (off + 1) bs).length = _
      rw [ih, List.length_set]

lemma setBytes_eq_of_le (b : List ℕ) :
    ∀ (buf : List ℕ) (off : ℕ), off + b.length ≤ buf.length →
      setBytes buf off b = buf.take off ++ b ++ buf.drop (off + b.length) := by
  induction b with
  | nil =>
      intro buf off _
      show buf = _
      simp [List.take_append_drop]
  | cons x bs ih =>
      intro buf off h
      have hoff : off < buf.length := by
        simp only [List.length_cons] at h; omega
      show setBytes (buf.set off x) (off + 1) bs = _
      rw [ih (buf.set off x) (off + 1)
        (by rw [List.length_set]; simp only [List.length_cons] at h; omega)]
      rw [List.set_eq_take_cons_drop x hoff]
      have hlt : (buf.take off).length = off := by
        rw [List.length_take]; omega
      have h1 : (buf.take off ++ x :: buf.drop (off + 1)).take (off + 1) =
          buf.take off ++ [x] := by
        rw [List.take_append_eq_append_take, hlt, List.take_take,
          show min (off + 1) off = off by omega,
          show off + 1 - off = 0 + 1 by omega,
          List.take_succ_cons, List.take_zero]
      have h2 : (buf.take off ++ x :: buf.drop (off + 1)).drop
          (off + 1 + bs.length) = buf.drop (off + (bs.length + 1)) := by
        rw [List.drop_append_eq_append_drop,
          List.drop_eq_nil_of_le (by rw [List.length_take]; omega),
          List.nil_append, hlt,
          show off + 1 + bs.length - off = bs.length + 1 by omega,
          List.drop_succ_cons, List.drop_drop,
          show off + 1 + bs.length = off + (bs.length + 1) by omega]
      rw [h1, h2]
      simp only [List.length_cons, List.append_assoc, List.cons_append,
        List.singleton_append, List.nil_append]

/-- The wave-writer's `AudioFormat` argument: `createWaveHeader` reads
only `sampleRate` and `numberOfChannels`, each defended by `?? default`
(absent field modelled as `none`). -/
structure WavFormat where
  sampleRate : Option ℤ
  numberOfChannels : Option ℤ
deriving DecidableEq

/-- `createWaveHeader(format, dataLength)` from `src/server/audio.ts`:
allocate 44 zero bytes and perform the thirteen in-place writes, each
`writeUIntNNLE` validating its range.  `none` models a thrown
`RangeError`. -/
def createWaveHeader (format : WavFormat) (dataLength : ℤ) : Option (List ℕ) :=
  let numChannels : ℤ := max 1 (format.numberOfChannels.getD 1)
  let sampleRate : ℤ := max 1 (format.sampleRate.getD 48000)
  let bitsPerSample : ℤ := 16
  let byteRate : ℤ := sampleRate * numChannels * (bitsPerSample / 8)
  let blockAlign : ℤ := numChannels * (bitsPerSample / 8)
  let chunkSize : ℤ := 36 + dataLength
  let h0 := setBytes (List.replicate 44 0) 0 [82, 73, 70, 70]
  do
  let b1 ← writeUInt32LEBytes chunkSize
  let h1 := setBytes h0 4 b1
  let h2 := setBytes h1 8 [87, 65, 86, 69]
  let h3 := setBytes h2 12 [102, 109, 116, 32]
  let b4 ← writeUInt32LEBytes 16
  let h4 := setBytes h3 16 b4
  let b5 ← writeUInt16LEBytes 1
  let h5 := setBytes h4 20 b5
  let b6 ← writeUInt16LEBytes numChannels
  let h6 := setBytes h5 22 b6
  let b7 ← writeUInt32LEBytes sampleRate
  let h7 := setBytes h6 24 b7
  let b8 ← writeUInt32LEBytes byteRate
  let h8 := setBytes h7 28 b8
  let b9 ← writeUInt16LEBytes blockAlign
  let h9 := setBytes h8 32 b9
  let b10 ← writeUInt16LEBytes bitsPerSample
  let h10 := setBytes h9 34 b10
  let h11 := setBytes h10 36 [100, 97, 116, 97]
  let b12 ← writeUInt32LEBytes dataLength
  some (setBytes h11 40 b12)

/-- The 44 header bytes exactly as the specification enumerates them:
"RIFF", uint32 LE `36+N`, "WAVE", "fmt ", uint32 LE 16, uint16 LE 1,
uint16 LE channels, uint32 LE sampleRate, uint32 LE byteRate, uint16 LE
blockAlign, uint16 LE 16, "data", uint32 LE `N`. -/
def specWaveHeader (numChannels sampleRate dataLen : ℤ) : List ℕ :=
  [82, 73, 70, 70] ++ zbytes4 (36 + dataLen) ++ [87, 65, 86, 69] ++
  [102, 109, 116, 32] ++ zbytes4 16 ++ zbytes2 1 ++ zbytes2 numChannels ++
  zbytes4 sampleRate ++ zbytes4 (sampleRate * numChannels * 2) ++
  zbytes2 (numChannels * 2) ++ zbytes2 16 ++ [100, 97, 116, 97] ++
  zbytes4 dataLen

lemma specWaveHeader_length (ch sr d : ℤ) :
    (specWaveHeader ch sr d).length = 44 := by
  simp [specWaveHeader, zbytes2, zbytes4]

lemma setBytes_chain_44 (x0 x1 x2 x3 x4 x5 x6 x7 x8 x9 x10 x11 x12 x13
    x14 x15 x16 x17 x18 x19 x20 x21 x22 x23 x24 x25 x26 x27 x28 x29 x30
    x31 x32 x33 x34 x35 x36 x37 x38 x39 x40 x41 x42 x43 : ℕ) :
    setBytes (setBytes (setBytes (setBytes (setBytes (setBytes (setBytes
      (setBytes (setBytes (setBytes (setBytes (setBytes (setBytes
        (List.replicate 44 0)
        0 [x0, x1, x2, x3])
        4 [x4, x5, x6, x7])
        8 [x8, x9, x10, x11])
        12 [x12, x13, x14, x15])
        16 [x16, x17, x18, x19])
        20 [x20, x21])
        22 [x22, x23])
        24 [x24, x25, x26, x27])
        28 [x28, x29, x30, x31])
        32 [x32, x33])
        34 [x34, x35])
        36 [x36, x37, x38, x39])
        40 [x40, x41, x42, x43] =
    [x0, x1, x2, x3, x4, x5, x6, x7, x8, x9, x10, x11, x12, x13, x14,
     x15, x16, x17, x18, x19, x20, x21, x22, x23, x24, x25, x26, x27,
     x28, x29, x30, x31, x32, x33, x34, x35, x36, x37, x38, x39, x40,
     x41, x42, x43] := by
  have t0 : setBytes (List.replicate 44 0) 0 [x0, x1, x2, x3] =
      [x0, x1, x2, x3, 0, 0, 0, 0, 0, 0, 0, 0, 0, 0, 0, 0, 0, 0, 0, 0, 0, 0, 0, 0, 0, 0, 0, 0, 0, 0, 0, 0, 0, 0, 0, 0, 0, 0, 0, 0, 0, 0, 0, 0] := rfl
  have t1 : setBytes [x0, x1, x2, x3, 0, 0, 0, 0, 0, 0, 0, 0, 0, 0, 0, 0, 0, 0, 0, 0, 0, 0, 0, 0, 0, 0, 0, 0, 0, 0, 0, 0, 0, 0, 0, 0, 0, 0, 0, 0, 0, 0, 0, 0] 4 [x4, x5, x6, x7] =
      [x0, x1, x2, x3, x4, x5, x6, x7, 0, 0, 0, 0, 0, 0, 0, 0, 0, 0, 0, 0, 0, 0, 0, 0, 0, 0, 0, 0, 0, 0, 0, 0, 0, 0, 0, 0, 0, 0, 0, 0, 0, 0, 0, 0] := rfl
  have t2 : setBytes [x0, x1, x2, x3, x4, x5, x6, x7, 0, 0, 0, 0, 0, 0, 0, 0, 0, 0, 0, 0, 0, 0, 0, 0, 0, 0, 0, 0, 0, 0, 0, 0, 0, 0, 0, 0, 0, 0, 0, 0, 0, 0, 0, 0] 8 [x8, x9, x10, x11] =
      [x0, x1, x2, x3, x4, x5, x6, x7, x8, x9, x10, x11, 0, 0, 0, 0, 0, 0, 0, 0, 0, 0, 0, 0, 0, 0, 0, 0, 0, 0, 0, 0, 0, 0, 0, 0, 0, 0, 0, 0, 0, 0, 0, 0] := rfl
  have t3 : setBytes [x0, x1, x2, x3, x4, x5, x6, x7, x8, x9, x10, x11, 0, 0, 0, 0, 0, 0, 0, 0, 0, 0, 0, 0, 0, 0, 0, 0, 0, 0, 0, 0, 0, 0, 0, 0, 0, 0, 0, 0, 0, 0, 0, 0] 12 [x12, x13, x14, x15] =
      [x0, x1, x2, x3, x4, x5, x6, x7, x8, x9, x10, x11, x12, x13, x14, x15, 0, 0, 0, 0, 0, 0, 0, 0, 0, 0, 0, 0, 0, 0, 0, 0, 0, 0, 0, 0, 0, 0, 0, 0, 0, 0, 0, 0] := rfl
  have t4 : setBytes [x0, x1, x2, x3, x4, x5, x6, x7, x8, x9, x10, x11, x12, x13, x14, x15, 0, 0, 0, 0, 0, 0, 0, 0, 0, 0, 0, 0, 0, 0, 0, 0, 0, 0, 0, 0, 0, 0, 0, 0, 0, 0, 0, 0] 16 [x16, x17, x18, x19] =
      [x0, x1, x2, x3, x4, x5, x6, x7, x8, x9, x10, x11, x12, x13, x14, x15, x16, x17, x18, x19, 0, 0, 0, 0, 0, 0, 0, 0, 0, 0, 0, 0, 0, 0, 0, 0, 0, 0, 0, 0, 0, 0, 0, 0] := rfl
  have t5 : setBytes [x0, x1, x2, x3, x4, x5, x6, x7, x8, x9, x10, x11, x12, x13, x14, x15, x16, x17, x18, x19, 0, 0, 0, 0, 0, 0, 0, 0, 0, 0, 0, 0, 0, 0, 0, 0, 0, 0, 0, 0, 0, 0, 0, 0] 20 [x20, x21] =
      [x0, x1, x2, x3, x4, x5, x6, x7, x8, x9, x10, x11, x12, x13, x14, x15, x16, x17, x18, x19, x20, x21, 0, 0, 0, 0, 0, 0, 0, 0, 0, 0, 0, 0, 0, 0, 0, 0, 0, 0, 0, 0, 0, 0] := rfl
  have t6 : setBytes [x0, x1, x2, x3, x4, x5, x6, x7, x8, x9, x10, x11, x12, x13, x14, x15, x16, x17, x18, x19, x20, x21, 0, 0, 0, 0, 0, 0, 0, 0, 0, 0, 0, 0, 0, 0, 0, 0, 0, 0, 0, 0, 0, 0] 22 [x22, x23] =
      [x0, x1, x2, x3, x4, x5, x6, x7, x8, x9, x10, x11, x12, x13, x14, x15, x16, x17, x18, x19, x20, x21, x22, x23, 0, 0, 0, 0, 0, 0, 0, 0, 0, 0, 0, 0, 0, 0, 0, 0, 0, 0, 0, 0] := rfl
  have t7 : setBytes [x0, x1, x2, x3, x4, x5, x6, x7, x8, x9, x10, x11, x12, x13, x14, x15, x16, x17, x18, x19, x20, x21, x22, x23, 0, 0, 0, 0, 0, 0, 0, 0, 0, 0, 0, 0, 0, 0, 0, 0, 0, 0, 0, 0] 24 [x24, x25, x26, x27] =
      [x0, x1, x2, x3, x4, x5, x6, x7, x8, x9, x10, x11, x12, x13, x14, x15, x16, x17, x18, x19, x20, x21, x22, x23, x24, x25, x26, x27, 0, 0, 0, 0, 0, 0, 0, 0, 0, 0, 0, 0, 0, 0, 0, 0] := rfl
  have t8 : setBytes [x0, x1, x2, x3, x4, x5, x6, x7, x8, x9, x10, x11, x12, x13, x14, x15, x16, x17, x18, x19, x20, x21, x22, x23, x24, x25, x26, x27, 0, 0, 0, 0, 0, 0, 0, 0, 0, 0, 0, 0, 0, 0, 0, 0] 28 [x28, x29, x30, x31] =
      [x0, x1, x2, x3, x4, x5, x6, x7, x8, x9, x10, x11, x12, x13, x14, x15, x16, x17, x18, x19, x20, x21, x22, x23, x24, x25, x26, x27, x28, x29, x30, x31, 0, 0, 0, 0, 0, 0, 0, 0, 0, 0, 0, 0] := rfl
  have t9 : setBytes [x0, x1, x2, x3, x4, x5, x6, x7, x8, x9, x10, x11, x12, x13, x14, x15, x16, x17, x18, x19, x20, x21, x22, x23, x24, x25, x26, x27, x28, x29, x30, x31, 0, 0, 0, 0, 0, 0, 0, 0, 0, 0, 0, 0] 32 [x32, x33] =
      [x0, x1, x2, x3, x4, x5, x6, x7, x8, x9, x10, x11, x12, x13, x14, x15, x16, x17, x18, x19, x20, x21, x22, x23, x24, x25, x26, x27, x28, x29, x30, x31, x32, x33, 0, 0, 0, 0, 0, 0, 0, 0, 0, 0] := rfl
  have t10 : setBytes [x0, x1, x2, x3, x4, x5, x6, x7, x8, x9, x10, x11, x12, x13, x14, x15, x16, x17, x18, x19, x20, x21, x22, x23, x24, x25, x26, x27, x28, x29, x30, x31, x32, x33, 0, 0, 0, 0, 0, 0, 0, 0, 0, 0] 34 [x34, x35] =
      [x0, x1, x2, x3, x4, x5, x6, x7, x8, x9, x10, x11, x12, x13, x14, x15, x16, x17, x18, x19, x20, x21, x22, x23, x24, x25, x26, x27, x28, x29, x30, x31, x32, x33, x34, x35, 0, 0, 0, 0, 0, 0, 0, 0] := rfl
  have t11 : setBytes [x0, x1, x2, x3, x4, x5, x6, x7, x8, x9, x10, x11, x12, x13, x14, x15, x16, x17, x18, x19, x20, x21, x22, x23, x24, x25, x26, x27, x28, x29, x30, x31, x32, x33, x34, x35, 0, 0, 0, 0, 0, 0, 0, 0] 36 [x36, x37, x38, x39] =
      [x0, x1, x2, x3, x4, x5, x6, x7, x8, x9, x10, x11, x12, x13, x14, x15, x16, x17, x18, x19, x20, x21, x22, x23, x24, x25, x26, x27, x28, x29, x30, x31, x32, x33, x34, x35, x36, x37, x38, x39, 0, 0, 0, 0] := rfl
  have t12 : setBytes [x0, x1, x2, x3, x4, x5, x6, x7, x8, x9, x10, x11, x12, x13, x14, x15, x16, x17, x18, x19, x20, x21, x22, x23, x24, x25, x26, x27, x28, x29, x30, x31, x32, x33, x34, x35, x36, x37, x38, x39, 0, 0, 0, 0] 40 [x40, x41, x42, x43] =
      [x0, x1, x2, x3, x4, x5, x6, x7, x8, x9, x10, x11, x12, x13, x14, x15, x16, x17, x18, x19, x20, x21, x22, x23, x24, x25, x26, x27, x28, x29, x30, x31, x32, x33, x34, x35, x36, x37, x38, x39, x40, x41, x42, x43] := rfl
  rw [t0, t1, t2, t3, t4, t5, t6, t7, t8, t9, t10, t11, t12]


lemma createWaveHeader_eq_spec (format : WavFormat) (dataLength : ℤ)
    (hd0 : 0 ≤ dataLength) (hd : 36 + dataLength < 4294967296)
    (hch : max 1 (format.numberOfChannels.getD 1) * 2 < 65536)
    (hsr : max 1 (format.sampleRate.getD 48000) < 4294967296)
    (hbr : max 1 (format.sampleRate.getD 48000) *
      max 1 (format.numberOfChannels.getD 1) * 2 < 4294967296) :
    createWaveHeader format dataLength =
      some (specWaveHeader (max 1 (format.numberOfChannels.getD 1))
        (max 1 (format.sampleRate.getD 48000)) dataLength) := by
  have e16 : (16 : ℤ) / 8 = 2 := by norm_num
  have w1 : writeUInt32LEBytes (36 + dataLength) =
      some (zbytes4 (36 + dataLength)) := by
    rw [writeUInt32LEBytes, if_pos ⟨by omega, hd⟩]
  have w4 : writeUInt32LEBytes 16 = some (zbytes4 16) := by
    rw [writeUInt32LEBytes, if_pos (by norm_num)]
  have w5 : writeUInt16LEBytes 1 = some (zbytes2 1) := by
    rw [writeUInt16LEBytes, if_pos (by norm_num)]
  have w6 : writeUInt16LEBytes (max 1 (format.numberOfChannels.getD 1)) =
      some (zbytes2 (max 1 (format.numberOfChannels.getD 1))) := by
    rw [writeUInt16LEBytes, if_pos ⟨by omega, by omega⟩]
  have w7 : writeUInt32LEBytes (max 1 (format.sampleRate.getD 48000)) =
      some (zbytes4 (max 1 (format.sampleRate.getD 48000))) := by
    rw [writeUInt32LEBytes, if_pos ⟨by omega, hsr⟩]
  have w8 : writeUInt32LEBytes (max 1 (format.sampleRate.getD 48000) *
      max 1 (format.numberOfChannels.getD 1) * ((16 : ℤ) / 8)) =
      some (zbytes4 (max 1 (format.sampleRate.getD 48000) *
        max 1 (format.numberOfChannels.getD 1) * 2)) := by
    rw [e16, writeUInt32LEBytes, if_pos ⟨by positivity, hbr⟩]
  have w9 : writeUInt16LEBytes (max 1 (format.numberOfChannels.getD 1) *
      ((16 : ℤ) / 8)) =
      some (zbytes2 (max 1 (format.numberOfChannels.getD 1) * 2)) := by
    rw [e16, writeUInt16LEBytes, if_pos ⟨by positivity, hch⟩]
  have w10 : writeUInt16LEBytes 16 = some (zbytes2 16) := by
    rw [writeUInt16LEBytes, if_pos (by norm_num)]
  have w12 : writeUInt32LEBytes dataLength = some (zbytes4 dataLength) := by
    rw [writeUInt32LEBytes, if_pos ⟨hd0, by omega⟩]
  rw [createWaveHeader]
  simp only [w1, w4, w5, w6, w7, w8, w9, w10, w12, Option.bind_eq_bind,
    Option.some_bind, zbytes2, zbytes4]
  rw [setBytes_chain_44]
  simp [specWaveHeader, zbytes2, zbytes4]

/-- The `WavWriter` state: the bytes currently in the file, the running
`bytesWritten` counter and the `closed` flag. -/
structure WavWriterM where
  format : WavFormat
  file : List ℕ
  bytesWritten : ℕ
  closed : Bool

/-- The `WavWriter` constructor: write a placeholder header for data
length 0 (`none` models a constructor throw). -/
def WavWriterM.init (format : WavFormat) : Option WavWriterM :=
  (createWaveHeader format 0).map (fun h => ⟨format, h, 0, false⟩)

/-- `WavWriter.write(buffer)`: a no-op after close, otherwise append the
bytes verbatim and bump `bytesWritten`. -/
def WavWriterM.write (w : WavWriterM) (buffer : List ℕ) : WavWriterM :=
  if w.closed then w
  else { w with
    bytesWritten := w.bytesWritten + buffer.length,
    file := w.file ++ buffer }

/-- `WavWriter.close()`: idempotent; rewrites bytes `[0, 44)` in place
with the header finalised at `dataLength = bytesWritten`. -/
def WavWriterM.close (w : WavWriterM) : Option WavWriterM :=
  if w.closed then some w
  else (createWaveHeader w.format (w.bytesWritten : ℤ)).map
    (fun h => { w with file := setBytes w.file 0 h, closed := true })


lemma wavWriter_foldl_write (bufs : List (List ℕ)) :
    ∀ (w : WavWriterM), w.closed = false →
      (bufs.foldl WavWriterM.write w).format = w.format ∧
      (bufs.foldl WavWriterM.write w).closed = false ∧
      (bufs.foldl WavWriterM.write w).file = w.file ++ bufs.flatten ∧
      (bufs.foldl WavWriterM.write w).bytesWritten =
        w.bytesWritten + (bufs.map List.length).sum := by
  induction bufs with
  | nil => intro w hw; simp [hw]
  | cons b bs ih =>
      intro w hw
      have hstep : WavWriterM.write w b =
          { w with
              bytesWritten := w.bytesWritten + b.length
              file := w.file ++ b } := by
        rw [WavWriterM.write, if_neg (by simp [hw])]
      obtain ⟨h1, h2, h3, h4⟩ := ih (WavWriterM.write w b) (by rw [hstep]; exact hw)
      refine ⟨by rw [List.foldl_cons, h1, hstep],
        by rw [List.foldl_cons, h2], ?_, ?_⟩
      · rw [List.foldl_cons, h3, hstep]
        simp [List.append_assoc]
      · rw [List.foldl_cons, h4, hstep]
        simp; omega

/-- **C2.** For every `AudioFormat` (with the header fields in the
ranges Node's `writeUIntNNLE` accepts) and every sequence of `write`
calls totalling `N` bytes, after `WavWriter.close()` the file's first
44 bytes are exactly `"RIFF"`, uint32 LE `36+N`, `"WAVE"`, `"fmt "`,
uint32 LE 16, uint16 LE 1, uint16 LE `max(1, numberOfChannels)`,
uint32 LE `max(1, sampleRate)`, uint32 LE `sampleRate*channels*2`,
uint16 LE `channels*2`, uint16 LE 16, `"data"`, uint32 LE `N`, followed
by exactly the written data; with no prior write (`bufs = []`) the file
is the valid 44-byte container with data-length field 0. -/
theorem wavWriter_close_header (format : WavFormat) (bufs : List (List ℕ))
    (hd : 36 + ((bufs.map List.length).sum : ℤ) < 4294967296)
    (hch : max 1 (format.numberOfChannels.getD 1) * 2 < 65536)
    (hsr : max 1 (format.sampleRate.getD 48000) < 4294967296)
    (hbr : max 1 (format.sampleRate.getD 48000) *
      max 1 (format.numberOfChannels.getD 1) * 2 < 4294967296) :
    ∃ w0 wc, WavWriterM.init format = some w0 ∧
      WavWriterM.close (bufs.foldl WavWriterM.write w0) = some wc ∧
      wc.file.take 44 =
        specWaveHeader (max 1 (format.numberOfChannels.getD 1))
          (max 1 (format.sampleRate.getD 48000))
          ((bufs.map List.length).sum : ℤ) ∧
      wc.file.drop 44 = bufs.flatten ∧
      wc.file.length = 44 + (bufs.map List.length).sum := by
  have h0 : createWaveHeader format 0 =
      some (specWaveHeader (max 1 (format.numberOfChannels.getD 1))
        (max 1 (format.sampleRate.getD 48000)) 0) :=
    createWaveHeader_eq_spec format 0 le_rfl (by norm_num) hch hsr hbr
  have hN : createWaveHeader format ((bufs.map List.length).sum : ℤ) =
      some (specWaveHeader (max 1 (format.numberOfChannels.getD 1))
        (max 1 (format.sampleRate.getD 48000))
        ((bufs.map List.length).sum : ℤ)) :=
    createWaveHeader_eq_spec format _ (by positivity) hd hch hsr hbr
  set ch := max 1 (format.numberOfChannels.getD 1) with hchdef
  set sr := max 1 (format.sampleRate.getD 48000) with hsrdef
  set w0 : WavWriterM := ⟨format, specWaveHeader ch sr 0, 0, false⟩ with hw0def
  have hw0fmt : w0.format = format := rfl
  have hw0file : w0.file = specWaveHeader ch sr 0 := rfl
  have hw0bw : w0.bytesWritten = 0 := rfl
  have hinit : WavWriterM.init format = some w0 := by
    rw [WavWriterM.init, h0, Option.map_some']
  obtain ⟨hfmt, hcl, hfile, hbw⟩ := wavWriter_foldl_write bufs w0 rfl
  set wN := bufs.foldl WavWriterM.write w0 with hwNdef
  have hsetfull : setBytes wN.file 0
      (specWaveHeader ch sr ((bufs.map List.length).sum : ℤ)) =
      specWaveHeader ch sr ((bufs.map List.length).sum : ℤ) ++ bufs.flatten := by
    rw [hfile, hw0file]
    rw [setBytes_eq_of_le _ _ _ (by
      simp only [List.length_append, specWaveHeader_length]
      omega)]
    rw [List.take_zero, List.nil_append, Nat.zero_add, specWaveHeader_length]
    rw [show (44 : ℕ) = (specWaveHeader ch sr 0).length from
      (specWaveHeader_length _ _ _).symm, List.drop_left]
  set wc : WavWriterM := ⟨wN.format,
    specWaveHeader ch sr ((bufs.map List.length).sum : ℤ) ++ bufs.flatten,
    wN.bytesWritten, true⟩ with hwcdef
  have hwcfile : wc.file =
      specWaveHeader ch sr ((bufs.map List.length).sum : ℤ) ++ bufs.flatten :=
    rfl
  have hclose : WavWriterM.close wN = some wc := by
    rw [WavWriterM.close, if_neg (by simp [hcl]), hfmt, hw0fmt, hbw, hw0bw,
      Nat.zero_add, hN, Option.map_some', hsetfull]
    rw [hwcdef, hfmt, hw0fmt, hbw, hw0bw, Nat.zero_add]
  refine ⟨w0, wc, hinit, hclose, ?_, ?_, ?_⟩
  · rw [hwcfile]
    rw [show (44 : ℕ) =
      (specWaveHeader ch sr ((bufs.map List.length).sum : ℤ)).length from
      (specWaveHeader_length _ _ _).symm, List.take_left]
  · rw [hwcfile]
    rw [show (44 : ℕ) =
      (specWaveHeader ch sr ((bufs.map List.length).sum : ℤ)).length from
      (specWaveHeader_length _ _ _).symm, List.drop_left]
  · rw [hwcfile, List.length_append, specWaveHeader_length,
      List.length_flatten]

/-- Witness for C2 at `sampleRate = 48000`, `numberOfChannels = 1` and
no write at all: close produces the valid zero-data 44-byte container. -/
theorem wavWriter_close_header_witness :
    (36 + ((([] : List (List ℕ)).map List.length).sum : ℤ) < 4294967296 ∧
      max 1 ((WavFormat.mk (some 48000) (some 1)).numberOfChannels.getD 1)
        * 2 < 65536) ∧
    ∃ w0 wc, WavWriterM.init (WavFormat.mk (some 48000) (some 1)) = some w0 ∧
      WavWriterM.close (([] : List (List ℕ)).foldl WavWriterM.write w0) =
        some wc ∧
      wc.file.take 44 =
        specWaveHeader
          (max 1 ((WavFormat.mk (some 48000) (some 1)).numberOfChannels.getD 1))
          (max 1 ((WavFormat.mk (some 48000) (some 1)).sampleRate.getD 48000))
          ((([] : List (List ℕ)).map List.length).sum : ℤ) ∧
      wc.file.drop 44 = ([] : List (List ℕ)).flatten ∧
      wc.file.length = 44 + (([] : List (List ℕ)).map List.length).sum :=
  ⟨⟨by norm_num, by norm_num⟩,
    wavWriter_close_header (WavFormat.mk (some 48000) (some 1)) []
      (by norm_num) (by norm_num) (by norm_num) (by norm_num)⟩

/-! ## `src/server/deepgram-service.ts`: summarisation

JavaScript strings are Lean `String`s (sequences of code points); the
helpers below (`jsSplitPunct`, `jsTrim`, `joinSep`, substring test) are
written over the character list so that they evaluate inside the
kernel.  The case-insensitive keyword regexes are modelled by
lower-casing the sentence with the ASCII `Char.toLower` and searching
for the (already lower-case) pattern alternatives as substrings; this
is exact for the inputs considered here. -/

/-- One maximal-`[.!?]+`-separator split step: `text.split(/[.!?]+/)`. -/
def isPunctSplitChar (c : Char) : Bool := c = '.' || c = '!' || c = '?'

/-- Split a character list on maximal runs of `. ! ?`, keeping empty
fragments at the ends exactly as `String.prototype.split` does;
`skipping` records that the previous character belonged to a separator
run (so the run is consumed without emitting further fragments). -/
def splitPunctGo : List Char → List Char → Bool → List String
  | [], cur, _ => [String.mk cur.reverse]
  | c :: rest, cur, skipping =>
    if isPunctSplitChar c then
      if skipping then splitPunctGo rest [] true
      else String.mk cur.reverse :: splitPunctGo rest [] true
    else splitPunctGo rest (c :: cur) false

/-- `text.split(/[.!?]+/)`. -/
def jsSplitPunct (text : String) : List String :=
  splitPunctGo text.toList [] false

/-- `String.prototype.trim()` (whitespace at both ends removed). -/
def jsTrim (s : String) : String :=
  String.mk (((s.toList.dropWhile Char.isWhitespace).reverse.dropWhile
    Char.isWhitespace).reverse)

/-- `Array.prototype.join(sep)`. -/
def joinSep (sep : String) : List String → String
  | [] => ""
  | [s] => s
  | s :: rest => s ++ sep ++ joinSep sep rest

/-- Substring containment over character lists. -/
def containsSub (pat : List Char) : List Char → Bool
  | [] => pat.isEmpty
  | c :: t => pat.isPrefixOf (c :: t) || containsSub pat t

/-- Test of one alternation regex `/a|b|…/i` against a sentence:
any alternative occurs in the lower-cased sentence. -/
def reTestCI (alts : List String) (s : String) : Bool :=
  alts.any (fun a => containsSub a.toList (s.toList.map Char.toLower))

/-- Truthiness of an optional JavaScript string
(absent and `""` are falsy). -/
def jsTruthyStr (o : Option String) : Bool :=
  match o with
  | none => false
  | some s => !s.isEmpty

/-- `context ? context + "\n\n" + body : body`. -/
def jsApplyContext (context : Option String) (body : String) : String :=
  match context with
  | some c => if c.isEmpty then body else c ++ "\n\n" ++ body
  | none => body

/-- The sentence list common to `generateCustomSummary` and the four
extractors: split on `[.!?]+`, keep fragments whose **trimmed** length
exceeds 10. -/
def sentencesOf (text : String) : List String :=
  (jsSplitPunct text).filter (fun s => 10 < (jsTrim s).length)

/-- `array.slice(0, k)` for the non-negative `k` used here. -/
def jsSliceTake (xs : List String) (k : ℤ) : List String := xs.take k.toNat

/-- `array.slice(-m)` for the non-negative `m` used here: `-0` is `+0`,
so `slice(-0)` returns the whole array; for `m > 0` it keeps the last
`m` elements. -/
def jsSliceNeg (xs : List String) (m : ℤ) : List String :=
  if m = 0 then xs else xs.drop (xs.length - m.toNat)

/-- The `SummaryResult` record of `src/server/types.ts` (the source
union type of `source` is modelled as a string). -/
structure SummaryResult where
  summary : String
  keyPoints : List String
  actionItems : List String
  decisions : List String
  topics : List String
  source : String
  generatedAt : String
deriving DecidableEq

/-- The five keyword regexes of `extractKeyPoints`. -/
def keyPointPatterns : List (List String) :=
  [["quyết định", "kết luận", "thống nhất"],
   ["nhiệm vụ", "công việc", "phân công"],
   ["thời gian", "deadline", "hạn chót"],
   ["vấn đề", "khó khăn", "thách thức"],
   ["giải pháp", "đề xuất", "kiến nghị"]]

/-- The two keyword regexes of `extractActionItems`. -/
def actionItemPatterns : List (List String) :=
  [["phải", "cần", "sẽ", "phân công", "giao", "thực hiện"],
   ["deadline", "hạn", "hoàn thành", "bàn giao"]]

/-- The two keyword regexes of `extractDecisions`. -/
def decisionPatterns : List (List String) :=
  [["quyết định", "kết luận", "thống nhất", "chốt", "đồng ý"],
   ["phê duyệt", "thông qua", "chấp thuận"]]

/-- The two keyword regexes of `extractTopics`. -/
def topicPatterns : List (List String) :=
  [["về", "liên quan", "thảo luận", "bàn luận", "vấn đề"],
   ["dự án", "kế hoạch", "chiến lược", "mục tiêu"]]

/-- `extractKeyPoints(text)`: keep sentences matching some pattern,
cap at 5, trim each. -/
def extractKeyPoints (text : String) : List String :=
  (((sentencesOf text).filter
    (fun s => keyPointPatterns.any (fun pat => reTestCI pat s))).take 5).map
    jsTrim

/-- `extractActionItems(text)`: cap at 3. -/
def extractActionItems (text : String) : List String :=
  (((sentencesOf text).filter
    (fun s => actionItemPatterns.any (fun pat => reTestCI pat s))).take 3).map
    jsTrim

/-- `extractDecisions(text)`: cap at 3. -/
def extractDecisions (text : String) : List String :=
  (((sentencesOf text).filter
    (fun s => decisionPatterns.any (fun pat => reTestCI pat s))).take 3).map
    jsTrim

/-- `extractTopics(text)`: cap at 5. -/
def extractTopics (text : String) : List String :=
  (((sentencesOf text).filter
    (fun s => topicPatterns.any (fun pat => reTestCI pat s))).take 5).map
    jsTrim

/-- `generateCustomSummary(text, context?)` from
`src/server/deepgram-service.ts`.  `Math.ceil(N * 0.3)` is modelled
exactly over `ℚ`: `0.3` as a double is below `3/10` by `≈1.1e-17`, and
for every sentence count `N` the product `N * 0.3` rounds to a double
with the same ceiling as the exact `3N/10` (the nearest integers are at
distance ≥ 1/10 except at multiples of 10, where the product rounds to
the integer itself), so the rational model is exact.  `generatedAt` is
the wall-clock ISO timestamp, passed as the `now` argument. -/
def generateCustomSummary (text : String) (context : Option String)
    (now : String) : SummaryResult :=
  let sentences := sentencesOf text
  let summaryLength : ℤ :=
    min 3 ⌈(sentences.length : ℚ) * (3 / 10)⌉
  let summarySentences :=
    jsSliceTake sentences ⌈(summaryLength : ℚ) / 2⌉ ++
    jsSliceNeg sentences ⌊(summaryLength : ℚ) / 2⌋
  let finalSummary := jsApplyContext context (joinSep ". " summarySentences)
  { summary := jsTrim finalSummary
    keyPoints := extractKeyPoints text
    actionItems := extractActionItems text
    decisions := extractDecisions text
    topics := extractTopics text
    source := "custom"
    generatedAt := now }

/-- The slice of `RecorderConfig` that `summarizeText` reads. -/
structure SummConfig where
  summarizationProvider : String
  summarizationLanguage : String
  openaiApiKey : Option String
deriving DecidableEq

/-- `DeepgramService.summarizeText(text, context?, deepgramSummary?)`
from `src/server/deepgram-service.ts`.  The OpenAI call
(`openaiService.summarizeMeetingTranscript`) is abstracted as the
`openaiOutcome` argument: `some r` when the call returns `r`, `none`
when it throws (the code catches the throw and falls through). -/
def summarizeText (cfg : SummConfig) (text : String)
    (context : Option String) (deepgramSummary : Option String)
    (openaiOutcome : Option SummaryResult) (now : String) : SummaryResult :=
  if (jsTrim text).isEmpty then
    { summary := "Không có nội dung để tóm tắt."
      keyPoints := []
      actionItems := []
      decisions := []
      topics := []
      source := "custom"
      generatedAt := now }
  else
    let provider : String :=
      if cfg.summarizationProvider = "auto" then
        if jsTruthyStr cfg.openaiApiKey then "openai"
        else if jsTruthyStr deepgramSummary &&
            cfg.summarizationLanguage = "en" then "deepgram"
        else "custom"
      else cfg.summarizationProvider
    let openaiResult : Option SummaryResult :=
      if provider = "openai" && jsTruthyStr cfg.openaiApiKey then
        openaiOutcome
      else none
    match openaiResult with
    | some r => r
    | none =>
      match deepgramSummary with
      | some dg =>
        if !(jsTrim dg).isEmpty then
          { summary := jsApplyContext context dg
            keyPoints := extractKeyPoints text
            actionItems := extractActionItems text
            decisions := extractDecisions text
            topics := extractTopics text
            source := "deepgram"
            generatedAt := now }
        else generateCustomSummary text context now
      | none => generateCustomSummary text context now

lemma ceil_natCast_div_ten (a : ℕ) :
    ⌈(a : ℚ) / 10⌉ = (((a + 9) / 10 : ℕ) : ℤ) := by
  have h1 : 10 * ((a + 9) / 10) ≤ a + 9 := by omega
  have h2 : a + 9 < 10 * ((a + 9) / 10) + 10 := by omega
  have hc1 : (10 : ℚ) * (((a + 9) / 10 : ℕ) : ℚ) ≤ (a : ℚ) + 9 := by
    exact_mod_cast h1
  have hc2 : (a : ℚ) + 9 < 10 * (((a + 9) / 10 : ℕ) : ℚ) + 10 := by
    exact_mod_cast h2
  have hc3 : (a : ℚ) ≤ 10 * (((a + 9) / 10 : ℕ) : ℚ) := by
    exact_mod_cast (by omega : a ≤ 10 * ((a + 9) / 10))
  rw [Int.ceil_eq_iff]
  constructor
  · rw [lt_div_iff₀ (by norm_num : (0 : ℚ) < 10)]
    rw [Int.cast_natCast]
    linarith [hc1, hc2, hc3]
  · rw [div_le_iff₀ (by norm_num : (0 : ℚ) < 10)]
    rw [Int.cast_natCast]
    linarith [hc1, hc2, hc3]

lemma ceil_natCast_div_two (a : ℕ) :
    ⌈(a : ℚ) / 2⌉ = (((a + 1) / 2 : ℕ) : ℤ) := by
  have h1 : 2 * ((a + 1) / 2) ≤ a + 1 := by omega
  have h2 : a + 1 < 2 * ((a + 1) / 2) + 2 := by omega
  have hc1 : (2 : ℚ) * (((a + 1) / 2 : ℕ) : ℚ) ≤ (a : ℚ) + 1 := by
    exact_mod_cast h1
  have hc2 : (a : ℚ) + 1 < 2 * (((a + 1) / 2 : ℕ) : ℚ) + 2 := by
    exact_mod_cast h2
  have hc3 : (a : ℚ) ≤ 2 * (((a + 1) / 2 : ℕ) : ℚ) := by
    exact_mod_cast (by omega : a ≤ 2 * ((a + 1) / 2))
  rw [Int.ceil_eq_iff]
  constructor
  · rw [lt_div_iff₀ (by norm_num : (0 : ℚ) < 2)]
    rw [Int.cast_natCast]
    linarith [hc1, hc2, hc3]
  · rw [div_le_iff₀ (by norm_num : (0 : ℚ) < 2)]
    rw [Int.cast_natCast]
    linarith [hc1, hc2, hc3]

lemma floor_natCast_div_two (a : ℕ) :
    ⌊(a : ℚ) / 2⌋ = ((a / 2 : ℕ) : ℤ) := by
  have h1 : 2 * (a / 2) ≤ a := by omega
  have h2 : a < 2 * (a / 2) + 2 := by omega
  have hc1 : (2 : ℚ) * ((a / 2 : ℕ) : ℚ) ≤ (a : ℚ) := by exact_mod_cast h1
  have hc2 : (a : ℚ) < 2 * ((a / 2 : ℕ) : ℚ) + 2 := by exact_mod_cast h2
  rw [Int.floor_eq_iff]
  constructor
  · rw [le_div_iff₀ (by norm_num : (0 : ℚ) < 2)]
    rw [Int.cast_natCast]
    linarith [hc1, hc2]
  · rw [div_lt_iff₀ (by norm_num : (0 : ℚ) < 2)]
    rw [Int.cast_natCast]
    linarith [hc1, hc2]

lemma ceil_natCast_mul_three_tenths (N : ℕ) :
    ⌈(N : ℚ) * (3 / 10)⌉ = (((3 * N + 9) / 10 : ℕ) : ℤ) := by
  rw [show (N : ℚ) * (3 / 10) = ((3 * N : ℕ) : ℚ) / 10 by push_cast; ring,
    ceil_natCast_div_ten]

/-- The `Nat`-level value of `Math.min(3, Math.ceil(N * 0.3))`. -/
def summaryLengthNat (N : ℕ) : ℕ := min 3 ((3 * N + 9) / 10)

/-- Evaluation of `generateCustomSummary` with the rational
ceilings/floors resolved into `Nat` arithmetic and the JavaScript
slices into `take`/`drop` (recall `slice(-0)` yields the whole array). -/
lemma generateCustomSummary_eval (text : String) (context : Option String)
    (now : String) :
    generateCustomSummary text context now =
      { summary := jsTrim (jsApplyContext context (joinSep ". "
          ((sentencesOf text).take
            ((summaryLengthNat (sentencesOf text).length + 1) / 2) ++
           (if summaryLengthNat (sentencesOf text).length / 2 = 0 then
              sentencesOf text
            else (sentencesOf text).drop ((sentencesOf text).length -
              summaryLengthNat (sentencesOf text).length / 2)))))
        keyPoints := extractKeyPoints text
        actionItems := extractActionItems text
        decisions := extractDecisions text
        topics := extractTopics text
        source := "custom"
        generatedAt := now } := by
  rw [generateCustomSummary]
  have hlen : (min 3 ⌈((sentencesOf text).length : ℚ) * (3 / 10)⌉ : ℤ) =
      ((summaryLengthNat (sentencesOf text).length : ℕ) : ℤ) := by
    rw [ceil_natCast_mul_three_tenths, summaryLengthNat]
    push_cast
    rfl
  rw [hlen]
  have htake : jsSliceTake (sentencesOf text)
      ⌈(((summaryLengthNat (sentencesOf text).length : ℕ) : ℤ) : ℚ) / 2⌉ =
      (sentencesOf text).take
        ((summaryLengthNat (sentencesOf text).length + 1) / 2) := by
    rw [jsSliceTake, show (((summaryLengthNat (sentencesOf text).length : ℕ) :
      ℤ) : ℚ) = ((summaryLengthNat (sentencesOf text).length : ℕ) : ℚ) by
      push_cast; rfl, ceil_natCast_div_two, Int.toNat_natCast]
  have hdrop : jsSliceNeg (sentencesOf text)
      ⌊(((summaryLengthNat (sentencesOf text).length : ℕ) : ℤ) : ℚ) / 2⌋ =
      (if summaryLengthNat (sentencesOf text).length / 2 = 0 then
        sentencesOf text
      else (sentencesOf text).drop ((sentencesOf text).length -
        summaryLengthNat (sentencesOf text).length / 2)) := by
    rw [jsSliceNeg, show (((summaryLengthNat (sentencesOf text).length : ℕ) :
      ℤ) : ℚ) = ((summaryLengthNat (sentencesOf text).length : ℕ) : ℚ) by
      push_cast; rfl, floor_natCast_div_two, Int.toNat_natCast]
    by_cases h : summaryLengthNat (sentencesOf text).length / 2 = 0
    · rw [if_pos (by exact_mod_cast h), if_pos h]
    · rw [if_neg (by exact_mod_cast h), if_neg h]
  rw [htake, hdrop]

/-- **C8 (amended).** For every input text, `generateCustomSummary`
splits on `[.!?]+` and keeps exactly the fragments whose **trimmed**
length exceeds 10; with `N` such sentences and
`L = min(3, ceil(N*0.3))` the summary is the first `ceil(L/2)`
sentences followed by — when `floor(L/2) = 0`, all sentences
(`slice(-0)` returns the whole array), otherwise the last `floor(L/2)`
sentences — joined by `". "` (then the optional context is prefixed and
the result trimmed); keyPoints, actionItems, decisions and topics are
keyword-filtered sentence lists capped at 5, 3, 3 and 5 matches. -/
theorem generateCustomSummary_formula (text : String) (ctx : Option String)
    (now : String) :
    (generateCustomSummary text ctx now).summary =
      jsTrim (jsApplyContext ctx (joinSep ". "
        ((sentencesOf text).take
          ((summaryLengthNat (sentencesOf text).length + 1) / 2) ++
         (if summaryLengthNat (sentencesOf text).length / 2 = 0 then
            sentencesOf text
          else (sentencesOf text).drop ((sentencesOf text).length -
            summaryLengthNat (sentencesOf text).length / 2))))) ∧
    sentencesOf text =
      (jsSplitPunct text).filter (fun s => 10 < (jsTrim s).length) ∧
    (generateCustomSummary text ctx now).keyPoints =
      (((sentencesOf text).filter
        (fun s => keyPointPatterns.any (fun pat => reTestCI pat s))).take 5).map
        jsTrim ∧
    (generateCustomSummary text ctx now).keyPoints.length ≤ 5 ∧
    (generateCustomSummary text ctx now).actionItems.length ≤ 3 ∧
    (generateCustomSummary text ctx now).decisions.length ≤ 3 ∧
    (generateCustomSummary text ctx now).topics.length ≤ 5 ∧
    (generateCustomSummary text ctx now).source = "custom" := by
  rw [generateCustomSummary_eval]
  refine ⟨rfl, rfl, rfl, ?_, ?_, ?_, ?_, rfl⟩
  · show (extractKeyPoints text).length ≤ 5
    rw [extractKeyPoints, List.length_map]
    exact List.length_take_le _ _
  · show (extractActionItems text).length ≤ 3
    rw [extractActionItems, List.length_map]
    exact List.length_take_le _ _
  · show (extractDecisions text).length ≤ 3
    rw [extractDecisions, List.length_map]
    exact List.length_take_le _ _
  · show (extractTopics text).length ≤ 5
    rw [extractTopics, List.length_map]
    exact List.length_take_le _ _

/-- A 20-sentence input used to separate the code's summary formula
from the one claimed in the specification. -/
def textTwentySentences : String :=
  "aaaaaaaaaa01. aaaaaaaaaa02. aaaaaaaaaa03. aaaaaaaaaa04. aaaaaaaaaa05. aaaaaaaaaa06. aaaaaaaaaa07. aaaaaaaaaa08. aaaaaaaaaa09. aaaaaaaaaa10. aaaaaaaaaa11. aaaaaaaaaa12. aaaaaaaaaa13. aaaaaaaaaa14. aaaaaaaaaa15. aaaaaaaaaa16. aaaaaaaaaa17. aaaaaaaaaa18. aaaaaaaaaa19. aaaaaaaaaa20."

/-- The sentence list as the claim words it: fragments whose **raw**
length exceeds 10 (no trimming before the comparison). -/
def claimC8Sentences (text : String) : List String :=
  (jsSplitPunct text).filter (fun s => 10 < s.length)

/-- The summary as the claim words it: the first `ceil(N*0.3)/2`
sentences followed by the last `floor(N*0.3)/2` sentences, joined by
`". "`, with no `min(3, ·)` cap. -/
def claimC8Summary (text : String) : String :=
  let S := claimC8Sentences text
  let N := S.length
  joinSep ". " (S.take ((3 * N + 9) / 10 / 2) ++ S.drop (N - 3 * N / 10 / 2))

/-- The keyPoints as the claim words them, over the raw-length-filtered
sentence list. -/
def claimC8KeyPoints (text : String) : List String :=
  (((claimC8Sentences text).filter
    (fun s => keyPointPatterns.any (fun pat => reTestCI pat s))).take 5).map
    jsTrim

/-- **C8 counterexample.** On twenty 13-byte sentences the code's
summary keeps `2 + 1` sentences (because of the `min(3, …)` cap the
claim omits) while the claim's formula keeps `3 + 3`; and on
`"  quyết định."` the code's trimmed-length filter drops the only
fragment (trimmed length 10) while the claim's raw-length filter keeps
it, so the code returns no keyPoints where the claim requires one. -/
theorem generateCustomSummary_formula_cex :
    (generateCustomSummary textTwentySentences none "t").summary ≠
      claimC8Summary textTwentySentences ∧
    (generateCustomSummary "  quyết định." none "t").keyPoints = [] ∧
    claimC8KeyPoints "  quyết định." ≠ [] := by
  refine ⟨?_, ?_, ?_⟩
  · rw [generateCustomSummary_eval]
    decide
  · rw [generateCustomSummary_eval]
    decide
  · decide

/-- The non-degenerate Vietnamese meeting text of the provider-fallback
scenario. -/
def viScenarioText : String :=
  "Hôm nay chúng ta họp về dự án mới và phân công nhiệm vụ."

/-- **C7 (amended).** Under provider `auto`: OpenAI is used iff an
OpenAI key is configured (and its result is returned when the call
succeeds); otherwise — including after an OpenAI failure — the Deepgram
built-in summary is used iff it is present and non-blank, **regardless
of the configured language**; otherwise the custom extractive
summariser is used, and a result with source `"custom"` is produced;
in the concrete scenario (no OpenAI key, no Deepgram summary, language
`"vi"`, meeting context supplied) the result has source `"custom"` and
a non-empty summary. -/
theorem summarizeText_auto_fallback (cfg : SummConfig) (text : String)
    (ctx dg : Option String) (oa : Option SummaryResult) (now : String)
    (hauto : cfg.summarizationProvider = "auto")
    (htext : (jsTrim text).isEmpty = false) :
    (∀ r, jsTruthyStr cfg.openaiApiKey = true → oa = some r →
      summarizeText cfg text ctx dg oa now = r) ∧
    (∀ d, (jsTruthyStr cfg.openaiApiKey = false ∨ oa = none) →
      dg = some d → (jsTrim d).isEmpty = false →
      (summarizeText cfg text ctx dg oa now).source = "deepgram" ∧
      (summarizeText cfg text ctx dg oa now).summary = jsApplyContext ctx d) ∧
    ((jsTruthyStr cfg.openaiApiKey = false ∨ oa = none) →
      (dg = none ∨ ∃ d, dg = some d ∧ (jsTrim d).isEmpty = true) →
      summarizeText cfg text ctx dg oa now =
        generateCustomSummary text ctx now ∧
      (summarizeText cfg text ctx dg oa now).source = "custom") ∧
    ((summarizeText ⟨"auto", "vi", none⟩ viScenarioText
        (some "Tóm tắt cuộc họp:") none none "t").source = "custom" ∧
      (summarizeText ⟨"auto", "vi", none⟩ viScenarioText
        (some "Tóm tắt cuộc họp:") none none "t").summary ≠ "") := by
  refine ⟨?_, ?_, ?_, ?_, ?_⟩
  · intro r hkey hoa
    subst hoa
    simp [summarizeText.eq_def, htext, hauto, hkey]
  · intro d hfail hdg htrim
    subst hdg
    rcases hfail with hkey | hoa
    · simp [summarizeText.eq_def, htext, hauto, hkey, htrim]
    · subst hoa
      simp [summarizeText.eq_def, htext, hauto, htrim]
  · intro hfail hdg
    have step : summarizeText cfg text ctx dg oa now =
        generateCustomSummary text ctx now := by
      rcases hdg with hnone | ⟨d, hsome, htrim⟩
      · subst hnone
        rcases hfail with hkey | hoa
        · simp [summarizeText.eq_def, htext, hauto, hkey]
        · subst hoa
          simp [summarizeText.eq_def, htext, hauto]
      · subst hsome
        rcases hfail with hkey | hoa
        · simp [summarizeText.eq_def, htext, hauto, hkey, htrim]
        · subst hoa
          simp [summarizeText.eq_def, htext, hauto, htrim]
    refine ⟨step, ?_⟩
    rw [step, generateCustomSummary_eval]
  · decide
  · have he : summarizeText ⟨"auto", "vi", none⟩ viScenarioText
        (some "Tóm tắt cuộc họp:") none none "t" =
        generateCustomSummary viScenarioText (some "Tóm tắt cuộc họp:") "t" :=
      rfl
    rw [he, generateCustomSummary_eval]
    decide

/-- Witness for C7 (amended) at the concrete fallback scenario:
provider `auto`, no OpenAI key, language `vi`. -/
theorem summarizeText_auto_fallback_witness :
    ((SummConfig.mk "auto" "vi" none).summarizationProvider = "auto" ∧
      (jsTrim viScenarioText).isEmpty = false) ∧
    ((∀ r, jsTruthyStr (SummConfig.mk "auto" "vi" none).openaiApiKey = true →
      (none : Option SummaryResult) = some r →
      summarizeText (SummConfig.mk "auto" "vi" none) viScenarioText
        (some "Tóm tắt cuộc họp:") none none "t" = r) ∧
    (∀ d, (jsTruthyStr (SummConfig.mk "auto" "vi" none).openaiApiKey = false ∨
        (none : Option SummaryResult) = none) →
      (none : Option String) = some d → (jsTrim d).isEmpty = false →
      (summarizeText (SummConfig.mk "auto" "vi" none) viScenarioText
        (some "Tóm tắt cuộc họp:") none none "t").source = "deepgram" ∧
      (summarizeText (SummConfig.mk "auto" "vi" none) viScenarioText
        (some "Tóm tắt cuộc họp:") none none "t").summary =
        jsApplyContext (some "Tóm tắt cuộc họp:") d) ∧
    ((jsTruthyStr (SummConfig.mk "auto" "vi" none).openaiApiKey = false ∨
        (none : Option SummaryResult) = none) →
      ((none : Option String) = none ∨
        ∃ d, (none : Option String) = some d ∧ (jsTrim d).isEmpty = true) →
      summarizeText (SummConfig.mk "auto" "vi" none) viScenarioText
        (some "Tóm tắt cuộc họp:") none none "t" =
        generateCustomSummary viScenarioText (some "Tóm tắt cuộc họp:") "t" ∧
      (summarizeText (SummConfig.mk "auto" "vi" none) viScenarioText
        (some "Tóm tắt cuộc họp:") none none "t").source = "custom") ∧
    ((summarizeText ⟨"auto", "vi", none⟩ viScenarioText
        (some "Tóm tắt cuộc họp:") none none "t").source = "custom" ∧
      (summarizeText ⟨"auto", "vi", none⟩ viScenarioText
        (some "Tóm tắt cuộc họp:") none none "t").summary ≠ "")) :=
  ⟨⟨rfl, by decide⟩,
    summarizeText_auto_fallback (SummConfig.mk "auto" "vi" none)
      viScenarioText (some "Tóm tắt cuộc họp:") none none "t" rfl (by decide)⟩

/-- **C7 counterexample.** With provider `auto`, no OpenAI key,
language `"vi"` and a non-blank Deepgram summary, the code returns the
Deepgram summary (source `"deepgram"`): the fallback test
`deepgramSummary && deepgramSummary.trim().length > 0` is not gated on
the language, so the claimed order (deepgram only when the language is
English, else custom) is violated. -/
theorem summarizeText_auto_language_cex :
    (summarizeText ⟨"auto", "vi", none⟩ viScenarioText none
      (some "A brief meeting summary.") none "t").source = "deepgram" ∧
    (SummConfig.mk "auto" "vi" none).summarizationLanguage ≠ "en" ∧
    jsTruthyStr (SummConfig.mk "auto" "vi" none).openaiApiKey = false ∧
    ("deepgram" : String) ≠ "custom" := by
  refine ⟨by decide, by decide, by decide, by decide⟩

/-! ## `src/server/session.ts`: the session state machine

One `SessionState` value per WebSocket connection.  File paths,
logging, the telemetry stream's contents, wall-clock timestamps and the
inactivity timer are not modelled; writers are modelled by an ordered
`writeLog` of the PCM chunks they receive.  `Math.random` is modelled
by a `rng` stream of draws in the state.  JSON parsing of a frame
payload and UTF-8 decoding of a participant-id byte range are supplied
as oracle functions in a `SessionEnv`. -/

/-- A JavaScript value of `typeof … === 'number'`: either NaN or an
exact (finite) numeric value.  (±∞ does not occur in the wire formats
modelled here.) -/
inductive JsNum
  | nan
  | val (q : ℚ)
deriving DecidableEq

/-- The `format` object carried by an `AudioFormatUpdate` event: each
field is absent (`none`) or a number / string. -/
structure WireAudioFormat where
  sampleRate : Option JsNum := none
  numberOfChannels : Option JsNum := none
  numberOfFrames : Option JsNum := none
  format : Option String := none
deriving DecidableEq

/-- The normalised `AudioFormat` stored in `metaState.audioFormat`. -/
structure NormAudioFormat where
  sampleRate : JsNum
  numberOfChannels : JsNum
  numberOfFrames : Option JsNum
  format : Option String
deriving DecidableEq

/-- One element of `newUsers`/`updatedUsers`: string-typed fields that
are present, the rest absent. -/
structure UserCandidate where
  deviceId : Option String := none
  displayName : Option String := none
  fullName : Option String := none
  isCurrentUser : Option Bool := none
deriving DecidableEq

/-- A decoded `RecorderJsonEvent`: the open-ended JSON object modelled
with exactly the fields the session reads, each optional.  A frame
whose JSON fails to parse, or parses to a non-object, is the parse
oracle's `none` (both cases return from `applyMetadata` with no state
change beyond the telemetry line). -/
structure RecEvent where
  type : String
  meetingUrl : Option String := none
  botName : Option String := none
  format : Option WireAudioFormat := none
  newUsers : Option (List (Option UserCandidate)) := none
  updatedUsers : Option (List (Option UserCandidate)) := none
  change : Option String := none
deriving DecidableEq

/-- `ParticipantInfo` from `src/server/session.ts`. -/
structure ParticipantInfo where
  deviceId : String
  displayName : Option String := none
  fullName : Option String := none
  isCurrentUser : Option Bool := none
deriving DecidableEq

/-- Identity of a PCM writer receiving a chunk. -/
inductive WriteTarget
  | mixed
  | participant (participantId : String)
deriving DecidableEq

/-- The six counters of `SessionStatsSnapshot`. -/
structure SessionStats where
  jsonMessages : ℕ := 0
  mixedAudioFrames : ℕ := 0
  participantAudioFrames : ℕ := 0
  videoFrames : ℕ := 0
  encodedVideoChunks : ℕ := 0
  unknownFrames : ℕ := 0
deriving DecidableEq

/-- The per-connection session state.  The insertion-ordered JavaScript
`Map`s are association lists; `writeLog` records every
`writer.write(pcm)` in order; `rng` is the stream of `Math.random`
draws consumed by label generation. -/
structure SessionState where
  enableMixedAudio : Bool
  enablePerParticipantAudio : Bool
  stats : SessionStats := {}
  meetingUrl : Option String := none
  botName : Option String := none
  audioFormat : Option NormAudioFormat := none
  participantInfo : List (String × ParticipantInfo) := []
  participantWriters : List (String × String) := []
  participantLabels : List (String × String) := []
  pendingMixedAudio : List (List ℕ) := []
  pendingParticipantAudio : List (String × List (List ℕ)) := []
  mixedWriterExists : Bool := false
  writeLog : List (WriteTarget × List ℕ) := []
  rng : List ℕ := []
  closed : Bool := false
deriving DecidableEq

/-- The oracles the byte-level machine is parameterised by:
`JSON.parse` on a frame payload (with `none` for a parse failure or a
non-object value) and `buffer.toString('utf8')` on an id byte range. -/
structure SessionEnv where
  parse : List ℕ → Option RecEvent
  utf8 : List ℕ → String

/-- `Map.prototype.get`. -/
def assocGet {β : Type _} (m : List (String × β)) (k : String) : Option β :=
  (m.find? (fun e => e.1 = k)).map (fun e => e.2)

/-- `Map.prototype.set`: replace in place when the key exists (keeping
its insertion position), else append. -/
def assocSet {β : Type _} : List (String × β) → String → β → List (String × β)
  | [], k, v => [(k, v)]
  | (k', v') :: rest, k, v =>
    if k' = k then (k, v) :: rest else (k', v') :: assocSet rest k v

/-- `extractDeviceSuffix`'s regex `/(\d+)(?!.*\d)/`: the last maximal
run of decimal digits, scanned left to right (`cur` is the run in
progress, `last` the most recently completed run). -/
def lastDigitRunGo : List Char → List Char → Option (List Char) → Option (List Char)
  | [], cur, last => if cur.isEmpty then last else some cur
  | c :: rest, cur, last =>
    if c.isDigit then lastDigitRunGo rest (cur ++ [c]) last
    else lastDigitRunGo rest [] (if cur.isEmpty then last else some cur)

/-- `extractDeviceSuffix(participantId)` from `src/server/session.ts`:
the regex match if the id contains any digit, else (dead branch) the
last three digits, else `"id"`. -/
def extractDeviceSuffix (participantId : String) : String :=
  match lastDigitRunGo participantId.toList [] none with
  | some run => String.mk run
  | none =>
    let digits := participantId.toList.filter Char.isDigit
    if digits.length ≠ 0 then String.mk (digits.drop (digits.length - 3))
    else "id"

/-- `normalizeParticipantName(value)`: NFKD normalisation and
combining-mark stripping are the identity on the code points kept by
the following step (ASCII alphanumerics), so they are not modelled
separately; then drop every non-ASCII-alphanumeric character,
lower-case, truncate to 48, defaulting to `"participant"`. -/
def normalizeParticipantName (value : String) : String :=
  let normalized :=
    (value.toList.filter (fun c => c.isAlpha || c.isDigit)).map Char.toLower
  if normalized.length ≠ 0 then String.mk (normalized.take 48)
  else "participant"

/-- `generateRandomDigits(count)`: `Math.floor(Math.random() * (max -
min + 1)) + min` with `min = 10^(count-1)`, `max = 10^count - 1`; the
`Math.random()` draw is modelled by `draw`, reduced into the range. -/
def generateRandomDigits (count : ℕ) (draw : ℕ) : String :=
  let lo := 10 ^ (count - 1)
  let hi := 10 ^ count - 1
  toString (lo + draw % (hi - lo + 1))

/-- `a || fallback` for an optional string (absent and `""` falsy). -/
def jsOrElse (o : Option String) (fallback : String) : String :=
  match o with
  | some s => if s.isEmpty then fallback else s
  | none => fallback

/-- `buildParticipantLabel(participantId, info?)`:
`name_suffix_rand`. -/
def buildParticipantLabel (participantId : String)
    (info : Option ParticipantInfo) (draw : ℕ) : String :=
  let randomPart := generateRandomDigits 3 draw
  let nameSource := jsOrElse (info.bind (fun i => i.fullName))
    (jsOrElse (info.bind (fun i => i.displayName)) "participant")
  let namePart := normalizeParticipantName nameSource
  let deviceSuffix := extractDeviceSuffix participantId
  namePart ++ "_" ++ deviceSuffix ++ "_" ++ randomPart

/-- Consume one `Math.random` draw. -/
def drawRng (s : SessionState) : ℕ × SessionState :=
  (s.rng.headD 0, { s with rng := s.rng.tail })

/-- `ensureMixedAudioWriter(format)`: lazy-create the mixed writer
(the path/`audioFiles` bookkeeping is not modelled). -/
def ensureMixedAudioWriter (s : SessionState) (_format : NormAudioFormat) :
    SessionState :=
  if s.mixedWriterExists then s else { s with mixedWriterExists := true }

/-- `ensureParticipantWriter(participantId, format)`: return the
existing writer's label, else look up the cached label (building and
caching one if absent) and create the writer. -/
def ensureParticipantWriter (s : SessionState) (participantId : String)
    (_format : NormAudioFormat) : SessionState × String :=
  match assocGet s.participantWriters participantId with
  | some label => (s, label)
  | none =>
    let info := assocGet s.participantInfo participantId
    let labelState : String × SessionState :=
      match assocGet s.participantLabels participantId with
      | some l => (l, s)
      | none =>
        let ds := drawRng s
        let l := buildParticipantLabel participantId info ds.1
        (l, { ds.2 with
          participantLabels := assocSet ds.2.participantLabels participantId l })
    ({ labelState.2 with
        participantWriters :=
          assocSet labelState.2.participantWriters participantId labelState.1 },
      labelState.1)

/-- `writer.write(pcm)` on the mixed writer. -/
def writeMixed (s : SessionState) (pcm : List ℕ) : SessionState :=
  { s with writeLog := s.writeLog ++ [(WriteTarget.mixed, pcm)] }

/-- `writerState.writer.write(pcm)` on a participant writer. -/
def writeParticipant (s : SessionState) (participantId : String)
    (pcm : List ℕ) : SessionState :=
  { s with writeLog := s.writeLog ++ [(WriteTarget.participant participantId, pcm)] }

/-- The mixed-pending drain loop of `flushPendingAudio`; `false` when a
chunk's conversion throws (leaving the earlier writes in place). -/
def flushMixedChunks : SessionState → List (List ℕ) → SessionState × Bool
  | s, [] => (s, true)
  | s, c :: rest =>
    match convertFloat32ToInt16 c with
    | some pcm => flushMixedChunks (writeMixed s pcm) rest
    | none => (s, false)

/-- The per-participant drain loop over one queue. -/
def flushParticipantChunks (participantId : String) :
    SessionState → List (List ℕ) → SessionState × Bool
  | s, [] => (s, true)
  | s, c :: rest =>
    match convertFloat32ToInt16 c with
    | some pcm => flushParticipantChunks participantId
        (writeParticipant s participantId pcm) rest
    | none => (s, false)

/-- The loop over `pendingParticipantAudio` entries, in insertion
order; empty queues are skipped before the writer is created. -/
def flushParticipantQueues (format : NormAudioFormat) :
    SessionState → List (String × List (List ℕ)) → SessionState × Bool
  | s, [] => (s, true)
  | s, (participantId, buffers) :: rest =>
    if buffers.isEmpty then flushParticipantQueues format s rest
    else
      let es := ensureParticipantWriter s participantId format
      match flushParticipantChunks participantId es.1 buffers with
      | (s2, true) => flushParticipantQueues format s2 rest
      | (s2, false) => (s2, false)

/-- `flushPendingAudio(format)` from `src/server/session.ts`: drain the
mixed queue (then clear it), then each participant queue in observed
order (then clear the map).  A conversion throw aborts the remainder
without clearing, exactly as the uncaught exception does in the
source. -/
def flushPendingAudio (s : SessionState) (format : NormAudioFormat) :
    SessionState × Bool :=
  let mixedStep : SessionState × Bool :=
    if ¬s.pendingMixedAudio.isEmpty ∧ s.enableMixedAudio then
      let s' := ensureMixedAudioWriter s format
      match flushMixedChunks s' s.pendingMixedAudio with
      | (s'', true) => ({ s'' with pendingMixedAudio := [] }, true)
      | (s'', false) => (s'', false)
    else (s, true)
  if ¬mixedStep.2 then mixedStep
  else
    let s1 := mixedStep.1
    if ¬s1.pendingParticipantAudio.isEmpty ∧ s.enablePerParticipantAudio then
      match flushParticipantQueues format s1 s1.pendingParticipantAudio with
      | (s2, true) => ({ s2 with pendingParticipantAudio := [] }, true)
      | (s2, false) => (s2, false)
    else (s1, true)

/-- `close(reason)` (minimal model): idempotent; marks the session
closed.  Writer finalisation, the summary file and archival are
filesystem effects outside the model. -/
def closeSession (s : SessionState) : SessionState :=
  if s.closed then s else { s with closed := true }

/-- `handleAudioFormatUpdate(event)`: accept iff `event.format` exists
and `typeof format.sampleRate === 'number'`; normalise
(`numberOfChannels ?? 1`), record, and flush pending audio.  The
`Bool` is false when the flush threw. -/
def handleAudioFormatUpdate (s : SessionState) (ev : RecEvent) :
    SessionState × Bool :=
  match ev.format with
  | none => (s, true)
  | some f =>
    match f.sampleRate with
    | none => (s, true)
    | some sr =>
      let normalised : NormAudioFormat :=
        { sampleRate := sr
          numberOfChannels := f.numberOfChannels.getD (JsNum.val 1)
          numberOfFrames := f.numberOfFrames
          format := f.format }
      flushPendingAudio { s with audioFormat := some normalised } normalised

/-- `handleUsersUpdate(event)`: upsert every object candidate with a
truthy string `deviceId`. -/
def handleUsersUpdate (s : SessionState) (ev : RecEvent) : SessionState :=
  let candidates := ev.newUsers.getD [] ++ ev.updatedUsers.getD []
  candidates.foldl (fun st c =>
    match c with
    | none => st
    | some cand =>
      match cand.deviceId with
      | none => st
      | some did =>
        if did.isEmpty then st
        else
          let info : ParticipantInfo :=
            { deviceId := did
              displayName := cand.displayName
              fullName := cand.fullName
              isCurrentUser := cand.isCurrentUser }
          { st with participantInfo := assocSet st.participantInfo did info }) s

/-- `handleMeetingStatusChange(event)`. -/
def handleMeetingStatusChange (s : SessionState) (ev : RecEvent) :
    SessionState :=
  if ev.change = some "removed_from_meeting" then closeSession s else s

/-- `applyMetadata(event)`: the sequential `if` blocks of the source;
the `Bool` is false when a flush throw aborted the rest (the throw
escapes to `handleJson`'s catch). -/
def applyMetadata (s : SessionState) (ev : RecEvent) : SessionState × Bool :=
  let s1 :=
    if ev.type = "SessionStarted" then
      let sA := match ev.meetingUrl with
        | some u => { s with meetingUrl := some u }
        | none => s
      match ev.botName with
      | some b => { sA with botName := some b }
      | none => sA
    else s
  let afStep : SessionState × Bool :=
    if ev.type = "AudioFormatUpdate" ∧ ev.format.isSome then
      handleAudioFormatUpdate s1 ev
    else (s1, true)
  if ¬afStep.2 then afStep
  else
    let s3 := if ev.type = "UsersUpdate" then handleUsersUpdate afStep.1 ev
      else afStep.1
    let s4 := if ev.type = "MeetingStatusChange" then
        handleMeetingStatusChange s3 ev
      else s3
    let s5 := if s4.meetingUrl = none then
        match ev.meetingUrl with
        | some u => { s4 with meetingUrl := some u }
        | none => s4
      else s4
    (s5, true)

/-- `handleJson(raw)`: count the message, write the telemetry line (not
modelled), parse, and apply the metadata; parse failures and throws
from inside `applyMetadata` are caught here. -/
def handleJson (env : SessionEnv) (s : SessionState) (payload : List ℕ) :
    SessionState :=
  let s1 := { s with stats :=
    { s.stats with jsonMessages := s.stats.jsonMessages + 1 } }
  match env.parse payload with
  | none => s1
  | some ev => (applyMetadata s1 ev).1

/-- `handleMixedAudio(payload)`: feature-gated; empty payloads are
dropped; before a format arrives the payload is queued; afterwards the
writer is ensured and the converted PCM written.  The `Bool` is false
when `convertFloat32ToInt16` throws (payload length not a multiple of
4), after the writer was already ensured. -/
def handleMixedAudio (s : SessionState) (payload : List ℕ) :
    SessionState × Bool :=
  if ¬s.enableMixedAudio then (s, true)
  else if payload.length = 0 then (s, true)
  else
    match s.audioFormat with
    | none =>
      ({ s with pendingMixedAudio := s.pendingMixedAudio ++ [payload] }, true)
    | some format =>
      let s1 := ensureMixedAudioWriter s format
      match convertFloat32ToInt16 payload with
      | some pcm => (writeMixed s1 pcm, true)
      | none => (s1, false)

/-- `handleParticipantAudio(payload)`: decode the
`idLen / participantId / float data` sub-envelope; short envelopes and
empty audio are dropped; before a format the audio is queued under the
participantId; afterwards the writer is ensured and the converted PCM
written (`false` on a conversion throw). -/
def handleParticipantAudio (env : SessionEnv) (s : SessionState)
    (payload : List ℕ) : SessionState × Bool :=
  if ¬s.enablePerParticipantAudio then (s, true)
  else if payload.length < 1 then (s, true)
  else
    let idLength := payload.headD 0
    let idEnd := 1 + idLength
    if payload.length < idEnd then (s, true)
    else
      let participantId := env.utf8 ((payload.drop 1).take idLength)
      let audioData := payload.drop idEnd
      if audioData.length = 0 then (s, true)
      else
        match s.audioFormat with
        | none =>
          let queue := (assocGet s.pendingParticipantAudio participantId).getD []
          let newPending :=
            assocSet s.pendingParticipantAudio participantId (queue ++ [audioData])
          ({ s with pendingParticipantAudio := newPending }, true)
        | some format =>
          let es := ensureParticipantWriter s participantId format
          match convertFloat32ToInt16 audioData with
          | some pcm => (writeParticipant es.1 participantId pcm, true)
          | none => (es.1, false)

def bumpVideo (s : SessionState) : SessionState :=
  { s with stats := { s.stats with videoFrames := s.stats.videoFrames + 1 } }

def bumpMixed (s : SessionState) : SessionState :=
  { s with stats :=
    { s.stats with mixedAudioFrames := s.stats.mixedAudioFrames + 1 } }

def bumpEncoded (s : SessionState) : SessionState :=
  { s with stats :=
    { s.stats with encodedVideoChunks := s.stats.encodedVideoChunks + 1 } }

def bumpParticipant (s : SessionState) : SessionState :=
  { s with stats :=
    { s.stats with participantAudioFrames := s.stats.participantAudioFrames + 1 } }

def bumpUnknown (s : SessionState) : SessionState :=
  { s with stats :=
    { s.stats with unknownFrames := s.stats.unknownFrames + 1 } }

/-- `dispatch(buffer)`: read the 4-byte LE type header (throwing —
`false` — on shorter frames), bump the branch's counter and run its
handler.  The `Bool` is false when the dispatch throws. -/
def dispatch (env : SessionEnv) (s : SessionState) (buffer : List ℕ) :
    SessionState × Bool :=
  if buffer.length < 4 then (s, false)
  else
    let frameType := readInt32LE buffer
    if frameType = 1 then (handleJson env s (buffer.drop 4), true)
    else if frameType = 2 then (bumpVideo s, true)
    else if frameType = 3 then handleMixedAudio (bumpMixed s) (buffer.drop 4)
    else if frameType = 4 then (bumpEncoded s, true)
    else if frameType = 5 then
      handleParticipantAudio env (bumpParticipant s) (buffer.drop 4)
    else (bumpUnknown s, true)

/-- `handleMessage(message)`: no-op once closed; empty buffers are
dropped before any counting; a throw escaping `dispatch` increments the
unknown-frames counter and the session continues.  (`lastMessageHr` and
the inactivity timer are wall-clock state outside the model.) -/
def handleMessage (env : SessionEnv) (s : SessionState)
    (message : List ℕ) : SessionState :=
  if s.closed then s
  else if message.length = 0 then s
  else
    match dispatch env s message with
    | (s', true) => s'
    | (s', false) => bumpUnknown s'

/-- A whole inbound frame sequence, in arrival order. -/
def runMessages (env : SessionEnv) (s : SessionState)
    (msgs : List (List ℕ)) : SessionState :=
  msgs.foldl (handleMessage env) s

/-- The initial state of a freshly constructed `Session` under the
given feature flags and random stream. -/
def initialSession (mixed perParticipant : Bool) (rng : List ℕ) :
    SessionState :=
  { enableMixedAudio := mixed
    enablePerParticipantAudio := perParticipant
    rng := rng }

/-- Fields never touched by the pending-audio drain machinery. -/
def QuietCore (s s' : SessionState) : Prop :=
  s'.enableMixedAudio = s.enableMixedAudio ∧
  s'.enablePerParticipantAudio = s.enablePerParticipantAudio ∧
  s'.stats = s.stats ∧
  s'.meetingUrl = s.meetingUrl ∧
  s'.botName = s.botName ∧
  s'.audioFormat = s.audioFormat ∧
  s'.participantInfo = s.participantInfo ∧
  s'.closed = s.closed

lemma quietCore_refl (s : SessionState) : QuietCore s s :=
  ⟨rfl, rfl, rfl, rfl, rfl, rfl, rfl, rfl⟩

lemma quietCore_trans {s1 s2 s3 : SessionState}
    (h12 : QuietCore s1 s2) (h23 : QuietCore s2 s3) : QuietCore s1 s3 := by
  obtain ⟨a1, a2, a3, a4, a5, a6, a7, a8⟩ := h12
  obtain ⟨b1, b2, b3, b4, b5, b6, b7, b8⟩ := h23
  exact ⟨b1.trans a1, b2.trans a2, b3.trans a3, b4.trans a4, b5.trans a5,
    b6.trans a6, b7.trans a7, b8.trans a8⟩

/-- Pending queues untouched. -/
def PendsQuiet (s s' : SessionState) : Prop :=
  s'.pendingMixedAudio = s.pendingMixedAudio ∧
  s'.pendingParticipantAudio = s.pendingParticipantAudio

lemma pendsQuiet_refl (s : SessionState) : PendsQuiet s s := ⟨rfl, rfl⟩

lemma pendsQuiet_trans {s1 s2 s3 : SessionState}
    (h12 : PendsQuiet s1 s2) (h23 : PendsQuiet s2 s3) : PendsQuiet s1 s3 :=
  ⟨h23.1.trans h12.1, h23.2.trans h12.2⟩

lemma ensureMixedAudioWriter_quiet (s : SessionState) (fmt : NormAudioFormat) :
    QuietCore s (ensureMixedAudioWriter s fmt) ∧
    PendsQuiet s (ensureMixedAudioWriter s fmt) := by
  rw [ensureMixedAudioWriter]
  by_cases h : s.mixedWriterExists
  · simp only [if_pos h]
    exact ⟨quietCore_refl s, pendsQuiet_refl s⟩
  · simp only [if_neg h]
    exact ⟨⟨rfl, rfl, rfl, rfl, rfl, rfl, rfl, rfl⟩, rfl, rfl⟩

lemma ensureParticipantWriter_quiet (s : SessionState) (pid : String)
    (fmt : NormAudioFormat) :
    QuietCore s (ensureParticipantWriter s pid fmt).1 ∧
    PendsQuiet s (ensureParticipantWriter s pid fmt).1 := by
  rw [ensureParticipantWriter]
  cases h : assocGet s.participantWriters pid with
  | some l =>
      exact ⟨quietCore_refl s, pendsQuiet_refl s⟩
  | none =>
      cases h2 : assocGet s.participantLabels pid with
      | some l =>
          simp only [h2]
          exact ⟨⟨rfl, rfl, rfl, rfl, rfl, rfl, rfl, rfl⟩, rfl, rfl⟩
      | none =>
          simp only [h2, drawRng]
          exact ⟨⟨rfl, rfl, rfl, rfl, rfl, rfl, rfl, rfl⟩, rfl, rfl⟩

lemma writeMixed_quiet (s : SessionState) (pcm : List ℕ) :
    QuietCore s (writeMixed s pcm) ∧ PendsQuiet s (writeMixed s pcm) :=
  ⟨⟨rfl, rfl, rfl, rfl, rfl, rfl, rfl, rfl⟩, rfl, rfl⟩

lemma writeParticipant_quiet (s : SessionState) (pid : String) (pcm : List ℕ) :
    QuietCore s (writeParticipant s pid pcm) ∧
    PendsQuiet s (writeParticipant s pid pcm) :=
  ⟨⟨rfl, rfl, rfl, rfl, rfl, rfl, rfl, rfl⟩, rfl, rfl⟩

lemma flushMixedChunks_quiet (chunks : List (List ℕ)) :
    ∀ s : SessionState, QuietCore s (flushMixedChunks s chunks).1 ∧
      PendsQuiet s (flushMixedChunks s chunks).1 := by
  induction chunks with
  | nil => intro s; exact ⟨quietCore_refl s, pendsQuiet_refl s⟩
  | cons c rest ih =>
      intro s
      rw [flushMixedChunks]
      cases h : convertFloat32ToInt16 c with
      | some pcm =>
          obtain ⟨hq, hp⟩ := ih (writeMixed s pcm)
          exact ⟨quietCore_trans (writeMixed_quiet s pcm).1 hq,
            pendsQuiet_trans (writeMixed_quiet s pcm).2 hp⟩
      | none => exact ⟨quietCore_refl s, pendsQuiet_refl s⟩

lemma flushParticipantChunks_quiet (pid : String) (chunks : List (List ℕ)) :
    ∀ s : SessionState, QuietCore s (flushParticipantChunks pid s chunks).1 ∧
      PendsQuiet s (flushParticipantChunks pid s chunks).1 := by
  induction chunks with
  | nil => intro s; exact ⟨quietCore_refl s, pendsQuiet_refl s⟩
  | cons c rest ih =>
      intro s
      rw [flushParticipantChunks]
      cases h : convertFloat32ToInt16 c with
      | some pcm =>
          obtain ⟨hq, hp⟩ := ih (writeParticipant s pid pcm)
          exact ⟨quietCore_trans (writeParticipant_quiet s pid pcm).1 hq,
            pendsQuiet_trans (writeParticipant_quiet s pid pcm).2 hp⟩
      | none => exact ⟨quietCore_refl s, pendsQuiet_refl s⟩

lemma flushParticipantQueues_quiet (fmt : NormAudioFormat)
    (entries : List (String × List (List ℕ))) :
    ∀ s : SessionState, QuietCore s (flushParticipantQueues fmt s entries).1 ∧
      PendsQuiet s (flushParticipantQueues fmt s entries).1 := by
  induction entries with
  | nil => intro s; exact ⟨quietCore_refl s, pendsQuiet_refl s⟩
  | cons e rest ih =>
      intro s
      obtain ⟨pid, buffers⟩ := e
      rw [flushParticipantQueues]
      by_cases hb : buffers.isEmpty
      · simp only [if_pos hb]
        exact ih s
      · simp only [if_neg hb]
        obtain ⟨he1, he2⟩ := ensureParticipantWriter_quiet s pid fmt
        obtain ⟨hc1, hc2⟩ :=
          flushParticipantChunks_quiet pid buffers
            (ensureParticipantWriter s pid fmt).1
        cases hres : flushParticipantChunks pid
            (ensureParticipantWriter s pid fmt).1 buffers with
        | mk s2 ok =>
            rw [hres] at hc1 hc2
            cases ok with
            | true =>
                obtain ⟨hr1, hr2⟩ := ih s2
                exact ⟨quietCore_trans (quietCore_trans he1 hc1) hr1,
                  pendsQuiet_trans (pendsQuiet_trans he2 hc2) hr2⟩
            | false =>
                exact ⟨quietCore_trans he1 hc1,
                  pendsQuiet_trans he2 hc2⟩

lemma flushPendingAudio_quiet (s : SessionState) (fmt : NormAudioFormat) :
    QuietCore s (flushPendingAudio s fmt).1 := by
  rw [flushPendingAudio]
  by_cases h1 : ¬s.pendingMixedAudio.isEmpty ∧ s.enableMixedAudio
  · simp only [if_pos h1]
    obtain ⟨he1, _⟩ := ensureMixedAudioWriter_quiet s fmt
    obtain ⟨hm1, _⟩ := flushMixedChunks_quiet s.pendingMixedAudio
      (ensureMixedAudioWriter s fmt)
    cases hres : flushMixedChunks (ensureMixedAudioWriter s fmt)
        s.pendingMixedAudio with
    | mk s2 ok =>
        rw [hres] at hm1
        have hcore2 : QuietCore s s2 := quietCore_trans he1 hm1
        cases ok with
        | true =>
            simp only []
            set s2' : SessionState := { s2 with pendingMixedAudio := [] } with hs2'
            have hcore2' : QuietCore s s2' :=
              quietCore_trans hcore2 ⟨rfl, rfl, rfl, rfl, rfl, rfl, rfl, rfl⟩
            by_cases h2 : ¬s2'.pendingParticipantAudio.isEmpty ∧
                s.enablePerParticipantAudio
            · simp only [if_pos h2]
              obtain ⟨hq1, _⟩ := flushParticipantQueues_quiet fmt
                s2'.pendingParticipantAudio s2'
              cases hres2 : flushParticipantQueues fmt s2'
                  s2'.pendingParticipantAudio with
              | mk s3 ok2 =>
                  rw [hres2] at hq1
                  cases ok2 with
                  | true =>
                      exact quietCore_trans (quietCore_trans hcore2' hq1)
                        ⟨rfl, rfl, rfl, rfl, rfl, rfl, rfl, rfl⟩
                  | false => exact quietCore_trans hcore2' hq1
            · simp only [if_neg h2]
              exact hcore2'
        | false =>
            simp only []
            exact hcore2
  · simp only [if_neg h1]
    by_cases h2 : ¬s.pendingParticipantAudio.isEmpty ∧
        s.enablePerParticipantAudio
    · simp only [if_pos h2]
      obtain ⟨hq1, _⟩ := flushParticipantQueues_quiet fmt
        s.pendingParticipantAudio s
      cases hres2 : flushParticipantQueues fmt s s.pendingParticipantAudio with
      | mk s3 ok2 =>
          rw [hres2] at hq1
          cases ok2 with
          | true =>
              exact quietCore_trans hq1 ⟨rfl, rfl, rfl, rfl, rfl, rfl, rfl, rfl⟩
          | false => exact hq1
    · simp only [if_neg h2]
      exact quietCore_refl s

/-- An environment whose parse oracle always fails (no JSON decodes). -/
def nullEnv : SessionEnv := ⟨fun _ => none, fun _ => ""⟩

/-- **C10.** Once `close` has run, every subsequent `handleMessage`
call returns immediately and leaves the entire session state unchanged
(every counter, the participant registry, the pending buffers and the
write log), for every inbound message and every oracle. -/
theorem handleMessage_after_close (env : SessionEnv) (s : SessionState)
    (m : List ℕ) (h : s.closed = true) :
    handleMessage env s m = s := by
  rw [handleMessage, if_pos h]

/-- Witness for C10: a freshly closed session ignores a JSON frame. -/
theorem handleMessage_after_close_witness :
    (closeSession (initialSession true true [])).closed = true ∧
    handleMessage nullEnv (closeSession (initialSession true true []))
      [1, 0, 0, 0] = closeSession (initialSession true true []) :=
  ⟨rfl, handleMessage_after_close nullEnv _ [1, 0, 0, 0] rfl⟩

/-- **C6 (amended).** A frame of length 1–3 (header unreadable)
increments the unknown-frames counter by exactly one and changes
nothing else, and the session continues; a frame of length 0, however,
is discarded before any counting: the state is completely unchanged
(no unknown-frames increment).  Wall-clock state (`lastMessageHr`,
inactivity timer) is outside the model. -/
theorem shortFrame_effect :
    (∀ (env : SessionEnv) (s : SessionState) (m : List ℕ),
      s.closed = false → 1 ≤ m.length → m.length < 4 →
      handleMessage env s m = bumpUnknown s) ∧
    (∀ (env : SessionEnv) (s : SessionState), handleMessage env s [] = s) := by
  constructor
  · intro env s m hcl hlen hlt
    have hd : dispatch env s m = (s, false) := by
      rw [dispatch, if_pos hlt]
    rw [handleMessage, if_neg (by simp [hcl]), if_neg (by omega), hd]
  · intro env s
    rw [handleMessage]
    by_cases hc : s.closed
    · rw [if_pos hc]
    · simp [hc]

/-- Witness for C6 (amended): a 1-byte frame on a fresh session bumps
only the unknown counter; the empty frame is a complete no-op. -/
theorem shortFrame_effect_witness :
    ((initialSession true true []).closed = false ∧
      1 ≤ ([7] : List ℕ).length ∧ ([7] : List ℕ).length < 4) ∧
    handleMessage nullEnv (initialSession true true []) [7] =
      bumpUnknown (initialSession true true []) ∧
    handleMessage nullEnv (initialSession true true []) [] =
      initialSession true true [] :=
  ⟨⟨rfl, by decide, by decide⟩,
    shortFrame_effect.1 nullEnv (initialSession true true []) [7] rfl
      (by decide) (by decide),
    shortFrame_effect.2 nullEnv (initialSession true true [])⟩

/-- **C6 counterexample.** An empty (length-0) inbound frame leaves
the session state — in particular the unknown-frames counter — fully
unchanged: the claimed increment by one does not happen, because
`handleMessage` returns before dispatch when `buf.length` is 0. -/
theorem shortFrame_cex :
    handleMessage nullEnv (initialSession true true []) [] =
      initialSession true true [] ∧
    (handleMessage nullEnv (initialSession true true []) []).stats.unknownFrames
      = 0 := by
  constructor
  · rfl
  · rfl

/-- The `AudioFormatUpdate` event carrying `format`. -/
def audioFormatEvent (f : WireAudioFormat) : RecEvent :=
  { type := "AudioFormatUpdate", format := some f }

/-- **C3 (amended).** `handleAudioFormatUpdate` accepts the format —
records it (enabling direct writes and pending-buffer draining) — if
and only if the event's `format.sampleRate` field is present with
JavaScript type `number`; the value is **not** inspected, so NaN, zero
and negative rates are all accepted.  When accepted, a missing
`numberOfChannels` defaults to 1. -/
theorem audioFormat_acceptance (s : SessionState) (f : WireAudioFormat) :
    (f.sampleRate = none →
      handleAudioFormatUpdate s (audioFormatEvent f) = (s, true)) ∧
    (∀ sr, f.sampleRate = some sr →
      (handleAudioFormatUpdate s (audioFormatEvent f)).1.audioFormat =
        some { sampleRate := sr
               numberOfChannels := f.numberOfChannels.getD (JsNum.val 1)
               numberOfFrames := f.numberOfFrames
               format := f.format }) := by
  constructor
  · intro h
    rw [handleAudioFormatUpdate]
    simp only [audioFormatEvent, h]
  · intro sr h
    rw [handleAudioFormatUpdate]
    simp only [audioFormatEvent, h]
    exact (flushPendingAudio_quiet _ _).2.2.2.2.2.1

/-- A format object whose `sampleRate` is the number 0. -/
def zeroRateFormat : WireAudioFormat := { sampleRate := some (JsNum.val 0) }

/-- Witness for C3 (amended): a `sampleRate: 0` format is accepted and
its missing `numberOfChannels` defaults to 1. -/
theorem audioFormat_acceptance_witness :
    zeroRateFormat.sampleRate = some (JsNum.val 0) ∧
    (handleAudioFormatUpdate (initialSession true true [])
      (audioFormatEvent zeroRateFormat)).1.audioFormat =
      some { sampleRate := JsNum.val 0
             numberOfChannels := JsNum.val 1
             numberOfFrames := none
             format := none } :=
  ⟨rfl, (audioFormat_acceptance (initialSession true true [])
    zeroRateFormat).2 (JsNum.val 0) rfl⟩

/-- **C3 counterexample.** An `AudioFormatUpdate` whose `sampleRate` is
the (non-positive) number 0 **is** accepted: the code records the
format, contradicting the claim that only positive sample rates are
treated as valid. -/
theorem audioFormat_acceptance_cex :
    ((handleAudioFormatUpdate (initialSession true true [])
      (audioFormatEvent zeroRateFormat)).1.audioFormat).isSome = true ∧
    ¬ (0 : ℚ) > 0 := by
  constructor
  · rfl
  · norm_num

/-- The last maximal digit run of a character list, written from the
right: skip the trailing non-digits, then take the digits. -/
def lastRunSpec (l : List Char) : List Char :=
  ((l.reverse.dropWhile (fun c => !c.isDigit)).takeWhile Char.isDigit).reverse

lemma lastRunSpec_all_digits (l : List Char)
    (h : ∀ c ∈ l, c.isDigit = true) : lastRunSpec l = l := by
  unfold lastRunSpec
  have hdrop : l.reverse.dropWhile (fun c => !c.isDigit) = l.reverse := by
    cases hl : l.reverse with
    | nil => rfl
    | cons c t =>
        rw [List.dropWhile_cons, if_neg]
        simp only [Bool.not_eq_true']
        have : c ∈ l := List.mem_reverse.mp (hl ▸ List.mem_cons_self c t)
        simp [h c this]
  rw [hdrop, List.takeWhile_eq_self_iff.mpr
    (fun x hx => h x (List.mem_reverse.mp hx)), List.reverse_reverse]

lemma lastRunSpec_skip (X Y : List Char) (c : Char)
    (hc : c.isDigit = false) (hY : Y.any Char.isDigit = true) :
    lastRunSpec (X ++ c :: Y) = lastRunSpec Y := by
  unfold lastRunSpec
  have hshape : (X ++ c :: Y).reverse = Y.reverse ++ (c :: X.reverse) := by
    rw [List.reverse_append, List.reverse_cons, List.append_assoc,
      List.singleton_append]
  rw [hshape]
  obtain ⟨y, hy, hyd⟩ := List.any_eq_true.mp hY
  have hne : (Y.reverse.dropWhile (fun c => !c.isDigit)).isEmpty = false := by
    rw [List.isEmpty_eq_false_iff_exists_mem]
    by_contra hcon
    push_neg at hcon
    have : Y.reverse.dropWhile (fun c => !c.isDigit) = [] :=
      List.eq_nil_iff_forall_not_mem.mpr hcon
    have := List.dropWhile_eq_nil_iff.mp this y (List.mem_reverse.mpr hy)
    simp [hyd] at this
  rw [List.dropWhile_append, if_neg (by simp [hne])]
  rw [List.takeWhile_append]
  by_cases hall : (List.takeWhile Char.isDigit
      (Y.reverse.dropWhile (fun c => !c.isDigit))).length =
      (Y.reverse.dropWhile (fun c => !c.isDigit)).length
  · rw [if_pos hall]
    have heq : List.takeWhile Char.isDigit
        (Y.reverse.dropWhile (fun c => !c.isDigit)) =
        Y.reverse.dropWhile (fun c => !c.isDigit) :=
      (List.takeWhile_prefix _).eq_of_length hall
    rw [List.takeWhile_cons, if_neg (by simp [hc])]
    rw [List.append_nil, heq]
  · rw [if_neg hall]

lemma lastRunSpec_keep (cur Y : List Char) (c : Char)
    (hcur : ∀ x ∈ cur, x.isDigit = true) (hne : cur ≠ [])
    (hc : c.isDigit = false) (hY : Y.any Char.isDigit = false) :
    lastRunSpec (cur ++ c :: Y) = cur := by
  unfold lastRunSpec
  have hshape : (cur ++ c :: Y).reverse = Y.reverse ++ (c :: cur.reverse) := by
    rw [List.reverse_append, List.reverse_cons, List.append_assoc,
      List.singleton_append]
  rw [hshape]
  have hYq : (Y.reverse.dropWhile (fun c => !c.isDigit)).isEmpty = true := by
    rw [List.isEmpty_iff]
    apply List.dropWhile_eq_nil_iff.mpr
    intro x hx
    have : x ∈ Y := List.mem_reverse.mp hx
    have : x.isDigit = false := by
      by_contra hcon
      have : x.isDigit = true := by
        cases hxd : x.isDigit with
        | true => rfl
        | false => exact absurd hxd hcon
      exact absurd (List.any_eq_true.mpr ⟨x, List.mem_reverse.mp hx, this⟩)
        (by simp [hY])
    simp [this]
  rw [List.dropWhile_append, if_pos hYq]
  rw [List.dropWhile_cons, if_pos (by simp [hc])]
  cases hrev : cur.reverse with
  | nil => exact absurd (by simpa using congrArg List.reverse hrev) hne
  | cons h t =>
      have hh : h.isDigit = true :=
        hcur h (List.mem_reverse.mp (hrev ▸ List.mem_cons_self h t))
      rw [List.dropWhile_cons, if_neg (by simp [hh])]
      rw [List.takeWhile_eq_self_iff.mpr (fun x hx => hcur x
        (List.mem_reverse.mp (hrev ▸ hx)))]
      rw [← hrev, List.reverse_reverse]

lemma lastDigitRunGo_spec :
    ∀ (l cur : List Char) (last : Option (List Char)),
      (∀ x ∈ cur, x.isDigit = true) →
      lastDigitRunGo l cur last =
        (if (cur ++ l).any Char.isDigit then some (lastRunSpec (cur ++ l))
         else last) := by
  intro l
  induction l with
  | nil =>
      intro cur last hcur
      rw [lastDigitRunGo]
      by_cases hce : cur.isEmpty
      · have hnil : cur = [] := List.isEmpty_iff.mp hce
        subst hnil
        simp
      · rw [if_neg hce]
        have hne : cur ≠ [] := fun h => hce (by simp [h])
        have hany : (cur ++ ([] : List Char)).any Char.isDigit = true := by
          cases cur with
          | nil => exact absurd rfl hne
          | cons h t =>
              simp only [List.any_eq_true]
              exact ⟨h, by simp, hcur h (List.mem_cons_self h t)⟩
        rw [if_pos hany, List.append_nil,
          lastRunSpec_all_digits cur hcur]
  | cons c rest ih =>
      intro cur last hcur
      rw [lastDigitRunGo]
      by_cases hd : c.isDigit
      · rw [if_pos hd]
        rw [ih (cur ++ [c]) last (by
          intro x hx
          rcases List.mem_append.mp hx with h1 | h2
          · exact hcur x h1
          · simp only [List.mem_singleton] at h2
            subst h2; exact hd)]
        rw [List.append_assoc, List.singleton_append]
      · rw [if_neg hd]
        rw [ih [] (if cur.isEmpty then last else some cur) (by
          intro x hx; cases hx)]
        simp only [List.nil_append]
        have hcb : c.isDigit = false := by
          cases hcd : c.isDigit with
          | true => exact absurd hcd hd
          | false => rfl
        by_cases hr : rest.any Char.isDigit
        · rw [if_pos hr]
          have hany2 : (cur ++ c :: rest).any Char.isDigit = true := by
            obtain ⟨y, hy, hyd⟩ := List.any_eq_true.mp hr
            exact List.any_eq_true.mpr ⟨y, by simp [hy], hyd⟩
          rw [if_pos hany2, lastRunSpec_skip cur rest c hcb hr]
        · rw [if_neg hr]
          by_cases hce : cur.isEmpty
          · have hnil : cur = [] := List.isEmpty_iff.mp hce
            subst hnil
            have hany0 : (([] : List Char) ++ c :: rest).any Char.isDigit
                = false := by
              simp only [List.nil_append, List.any_cons, hcb,
                Bool.false_or]
              simpa using hr
            rw [if_pos hce, if_neg (fun hcon => by
              rw [hany0] at hcon
              exact Bool.false_ne_true hcon)]
          · rw [if_neg hce]
            have hne : cur ≠ [] := fun h => hce (by simp [h])
            have hany2 : (cur ++ c :: rest).any Char.isDigit = true := by
              cases cur with
              | nil => exact absurd rfl hne
              | cons h t =>
                  exact List.any_eq_true.mpr
                    ⟨h, by simp, hcur h (List.mem_cons_self h t)⟩
            rw [if_pos hany2, lastRunSpec_keep cur rest c hcur hne hcb
              (by simpa using hr)]

/-- **C9 (amended).** The label built for a participantId `p` has the
form `name_suffix_rand` where `suffix` is the **last maximal run of
decimal digits anywhere in `p`** (the regex `/(\d+)(?!.*\d)/` — not
merely a trailing run, so the claimed
last-3-digits branch is unreachable), or `"id"` when `p` contains no
digit; `rand` is the decimal numeral of a draw in `[100, 999]` (three
decimal digits); the label is cached per participantId: an existing
writer or cached label is reused unchanged, so relabelling never
happens. -/
theorem participant_labeling :
    (∀ p : String, p.toList.any Char.isDigit = true →
      extractDeviceSuffix p = String.mk (lastRunSpec p.toList)) ∧
    (∀ p : String, p.toList.any Char.isDigit = false →
      extractDeviceSuffix p = "id") ∧
    (∀ (p : String) (info : Option ParticipantInfo) (draw : ℕ),
      buildParticipantLabel p info draw =
        normalizeParticipantName (jsOrElse (info.bind (fun i => i.fullName))
          (jsOrElse (info.bind (fun i => i.displayName)) "participant")) ++
        "_" ++ extractDeviceSuffix p ++ "_" ++ generateRandomDigits 3 draw) ∧
    (∀ draw : ℕ, ∃ v : ℕ, generateRandomDigits 3 draw = toString v ∧
      100 ≤ v ∧ v ≤ 999) ∧
    (∀ (s : SessionState) (p : String) (fmt : NormAudioFormat) (l : String),
      assocGet s.participantWriters p = some l →
      ensureParticipantWriter s p fmt = (s, l)) ∧
    (∀ (s : SessionState) (p : String) (fmt : NormAudioFormat) (l : String),
      assocGet s.participantWriters p = none →
      assocGet s.participantLabels p = some l →
      ensureParticipantWriter s p fmt =
        ({ s with participantWriters := assocSet s.participantWriters p l },
          l)) := by
  refine ⟨?_, ?_, ?_, ?_, ?_, ?_⟩
  · intro p hdig
    rw [extractDeviceSuffix, lastDigitRunGo_spec p.toList [] none
      (fun x hx => absurd hx (List.not_mem_nil x))]
    simp only [List.nil_append, hdig, if_true]
  · intro p hdig
    rw [extractDeviceSuffix, lastDigitRunGo_spec p.toList [] none
      (fun x hx => absurd hx (List.not_mem_nil x))]
    simp only [List.nil_append, hdig, Bool.false_eq_true, if_false]
    have hfil : p.toList.filter Char.isDigit = [] := by
      rw [List.filter_eq_nil_iff]
      intro a ha hcon
      exact Bool.false_ne_true ((List.any_eq_true.mpr ⟨a, ha, hcon⟩) ▸ hdig).symm
    rw [hfil]
    simp
  · intro p info draw
    rfl
  · intro draw
    refine ⟨100 + draw % 900, rfl, by omega, by omega⟩
  · intro s p fmt l h
    rw [ensureParticipantWriter]
    simp only [h]
  · intro s p fmt l h1 h2
    rw [ensureParticipantWriter]
    simp only [h1, h2]

/-- Witness for C9 (amended) at `p = "a12345b"` and a session whose
label cache already holds `p`. -/
theorem participant_labeling_witness :
    (("a12345b" : String).toList.any Char.isDigit = true ∧
      extractDeviceSuffix "a12345b" =
        String.mk (lastRunSpec ("a12345b" : String).toList)) ∧
    (assocGet [("a12345b", "cached_12345_777")] "a12345b" =
        some "cached_12345_777" ∧
      ensureParticipantWriter
        { initialSession true true [] with
            participantLabels := [("a12345b", "cached_12345_777")] }
        "a12345b"
        { sampleRate := JsNum.val 48000
          numberOfChannels := JsNum.val 1
          numberOfFrames := none
          format := none } =
        ({ initialSession true true [] with
            participantLabels := [("a12345b", "cached_12345_777")]
            participantWriters := assocSet [] "a12345b" "cached_12345_777" },
          "cached_12345_777")) :=
  ⟨⟨by decide, participant_labeling.1 "a12345b" (by decide)⟩,
    ⟨by decide,
      participant_labeling.2.2.2.2.2
        { initialSession true true [] with
            participantLabels := [("a12345b", "cached_12345_777")] }
        "a12345b"
        { sampleRate := JsNum.val 48000
          numberOfChannels := JsNum.val 1
          numberOfFrames := none
          format := none }
        "cached_12345_777" rfl rfl⟩⟩

/-- The device suffix exactly as the claim words it: the trailing run
of decimal digits of `p`; if none, the last 3 digits appearing anywhere
in `p`; if no digits at all, `"id"`. -/
def claimC9DeviceSuffix (participantId : String) : String :=
  let tr := (participantId.toList.reverse.takeWhile Char.isDigit).reverse
  if tr.length ≠ 0 then String.mk tr
  else
    let digits := participantId.toList.filter Char.isDigit
    if digits.length ≠ 0 then String.mk (digits.drop (digits.length - 3))
    else "id"

/-- **C9 counterexample.** For `p = "a12345b"` the claim's rule gives
`"345"` (no trailing digit run, so the last three digits anywhere),
but the code's regex `/(\d+)(?!.*\d)/` matches the whole last digit run
`"12345"`. -/
theorem extractDeviceSuffix_claim_cex :
    extractDeviceSuffix "a12345b" = "12345" ∧
    claimC9DeviceSuffix "a12345b" = "345" ∧
    extractDeviceSuffix "a12345b" ≠ claimC9DeviceSuffix "a12345b" := by
  refine ⟨by decide, by decide, by decide⟩

/-- The sum of the six stats counters. -/
def statsSum (s : SessionState) : ℕ :=
  s.stats.jsonMessages + s.stats.mixedAudioFrames +
  s.stats.participantAudioFrames + s.stats.videoFrames +
  s.stats.encodedVideoChunks + s.stats.unknownFrames

lemma convertFloat32ToInt16_eq_none_iff (p : List ℕ) :
    convertFloat32ToInt16 p = none ↔ p.length % 4 ≠ 0 := by
  rw [convertFloat32ToInt16]
  by_cases h : p.length % 4 = 0
  · simp [h]
  · simp [h]

lemma handleMixedAudio_step (s : SessionState) (payload : List ℕ) :
    (handleMixedAudio s payload).1.stats = s.stats ∧
    ((handleMixedAudio s payload).2 = false ↔
      (s.enableMixedAudio = true ∧ payload.length ≠ 0 ∧
        s.audioFormat.isSome = true ∧ payload.length % 4 ≠ 0)) := by
  rw [handleMixedAudio]
  by_cases he : s.enableMixedAudio
  · by_cases hl : payload.length = 0
    · simp [he, hl]
    · cases hf : s.audioFormat with
      | none => simp [he, hl, hf]
      | some fmt =>
          simp only [he, hl, hf, not_true, if_neg, if_false]
          have hquiet := (ensureMixedAudioWriter_quiet s fmt).1
          cases hc : convertFloat32ToInt16 payload with
          | some pcm =>
              have hnone : payload.length % 4 = 0 := by
                by_contra hcon
                rw [(convertFloat32ToInt16_eq_none_iff payload).mpr hcon] at hc
                cases hc
              simp only []
              constructor
              · show (writeMixed (ensureMixedAudioWriter s fmt) pcm).stats = s.stats
                rw [(writeMixed_quiet _ pcm).1.2.2.1, hquiet.2.2.1]
              · simp [he, hl, hf, hnone]
          | none =>
              have hmod : payload.length % 4 ≠ 0 :=
                (convertFloat32ToInt16_eq_none_iff payload).mp hc
              simp only []
              constructor
              · exact hquiet.2.2.1
              · simp [he, hl, hf, hmod]
  · simp [he]

lemma ensureParticipantWriter_stats (s : SessionState) (pid : String)
    (fmt : NormAudioFormat) :
    (ensureParticipantWriter s pid fmt).1.stats = s.stats :=
  (ensureParticipantWriter_quiet s pid fmt).1.2.2.1

lemma writeParticipant_ensure_stats (s : SessionState) (pid : String)
    (fmt : NormAudioFormat) (pcm : List ℕ) :
    (writeParticipant (ensureParticipantWriter s pid fmt).1 pid pcm).stats
      = s.stats := by
  have h2 := (writeParticipant_quiet (ensureParticipantWriter s pid fmt).1
    pid pcm).1.2.2.1
  exact h2.trans (ensureParticipantWriter_stats s pid fmt)

lemma handleParticipantAudio_step (env : SessionEnv) (s : SessionState)
    (payload : List ℕ) :
    (handleParticipantAudio env s payload).1.stats = s.stats ∧
    ((handleParticipantAudio env s payload).2 = false ↔
      (s.enablePerParticipantAudio = true ∧ 1 ≤ payload.length ∧
        1 + payload.headD 0 ≤ payload.length ∧
        (payload.drop (1 + payload.headD 0)).length ≠ 0 ∧
        s.audioFormat.isSome = true ∧
        (payload.drop (1 + payload.headD 0)).length % 4 ≠ 0)) := by
  rw [handleParticipantAudio]
  by_cases he : s.enablePerParticipantAudio
  · by_cases hl : payload.length < 1
    · simp [he, hl] <;> omega
    · by_cases hid : payload.length < 1 + payload.head?.getD 0
      · simp [he, hl, hid] <;> omega
      · by_cases ha : payload.length - (1 + payload.head?.getD 0) = 0
        · simp [he, hl, hid, ha] <;> omega
        · cases hf : s.audioFormat with
          | none => simp [he, hl, hid, ha, hf] <;> omega
          | some fmt =>
              cases hc : convertFloat32ToInt16
                  (payload.drop (1 + payload.headD 0)) with
              | some pcm =>
                  have hmod :
                      (payload.length - (1 + payload.head?.getD 0)) % 4
                      = 0 := by
                    by_cases hx : (payload.drop (1 + payload.headD 0)).length
                        % 4 = 0
                    · simpa using hx
                    · rw [(convertFloat32ToInt16_eq_none_iff
                        (payload.drop (1 + payload.headD 0))).mpr hx] at hc
                      cases hc
                  simp only [List.headD_eq_head?_getD] at hc
                  constructor
                  · simp [he, hl, hid, ha, hf, hc,
                      writeParticipant_ensure_stats]
                  · simp [he, hl, hid, ha, hf, hc] <;> omega
              | none =>
                  have hmod :
                      (payload.length - (1 + payload.head?.getD 0)) % 4
                      ≠ 0 := by
                    have := (convertFloat32ToInt16_eq_none_iff
                      (payload.drop (1 + payload.headD 0))).mp hc
                    simpa using this
                  simp only [List.headD_eq_head?_getD] at hc
                  constructor
                  · simp [he, hl, hid, ha, hf, hc,
                      ensureParticipantWriter_stats]
                  · simp [he, hl, hid, ha, hf, hc] <;> omega
  · simp [he]

lemma statsSum_congr {s s' : SessionState} (h : s'.stats = s.stats) :
    statsSum s' = statsSum s := by
  simp [statsSum, h]

lemma statsSum_bumpVideo (s : SessionState) :
    statsSum (bumpVideo s) = statsSum s + 1 := by
  simp only [statsSum, bumpVideo]
  omega

lemma statsSum_bumpMixed (s : SessionState) :
    statsSum (bumpMixed s) = statsSum s + 1 := by
  simp only [statsSum, bumpMixed]
  omega

lemma statsSum_bumpEncoded (s : SessionState) :
    statsSum (bumpEncoded s) = statsSum s + 1 := by
  simp only [statsSum, bumpEncoded]
  omega

lemma statsSum_bumpParticipant (s : SessionState) :
    statsSum (bumpParticipant s) = statsSum s + 1 := by
  simp only [statsSum, bumpParticipant]
  omega

lemma statsSum_bumpUnknown (s : SessionState) :
    statsSum (bumpUnknown s) = statsSum s + 1 := by
  simp only [statsSum, bumpUnknown]
  omega

lemma closeSession_stats (s : SessionState) :
    (closeSession s).stats = s.stats := by
  rw [closeSession]
  split <;> rfl

lemma handleMeetingStatusChange_stats (s : SessionState) (ev : RecEvent) :
    (handleMeetingStatusChange s ev).stats = s.stats := by
  rw [handleMeetingStatusChange]
  split
  · exact closeSession_stats s
  · rfl

lemma handleAudioFormatUpdate_stats (s : SessionState) (ev : RecEvent) :
    (handleAudioFormatUpdate s ev).1.stats = s.stats := by
  rw [handleAudioFormatUpdate]
  cases hf : ev.format with
  | none => rfl
  | some f =>
      dsimp only
      cases hsr : f.sampleRate with
      | none => rfl
      | some sr => exact (flushPendingAudio_quiet _ _).2.2.1

lemma foldl_stats {α : Type} (f : SessionState → α → SessionState)
    (hf : ∀ st c, (f st c).stats = st.stats) :
    ∀ (l : List α) (s : SessionState), (l.foldl f s).stats = s.stats := by
  intro l
  induction l with
  | nil => intro s; rfl
  | cons c cs ih =>
      intro s
      rw [List.foldl_cons, ih, hf]

lemma handleUsersUpdate_stats (s : SessionState) (ev : RecEvent) :
    (handleUsersUpdate s ev).stats = s.stats := by
  simp only [handleUsersUpdate]
  apply foldl_stats
  intro st c
  rcases c with _ | cand
  · rfl
  · rcases hdid : cand.deviceId with _ | did
    · simp [hdid]
    · by_cases hemp : did.isEmpty
      · simp [hdid, hemp]
      · simp [hdid, hemp]

lemma applyMetadata_stats (s : SessionState) (ev : RecEvent) :
    (applyMetadata s ev).1.stats = s.stats := by
  simp only [applyMetadata]
  repeat' split
  all_goals
    simp_all [handleAudioFormatUpdate_stats, handleUsersUpdate_stats,
      handleMeetingStatusChange_stats]

lemma handleJson_statsSum (env : SessionEnv) (s : SessionState)
    (p : List ℕ) : statsSum (handleJson env s p) = statsSum s + 1 := by
  rw [handleJson]
  cases hp : env.parse p with
  | none =>
      simp only [statsSum]
      omega
  | some ev =>
      rw [statsSum_congr (applyMetadata_stats _ ev)]
      simp only [statsSum]
      omega

/-- The condition under which `handleMixedAudio` throws after
`stats.mixedAudioFrames` was already incremented: mixed audio enabled,
nonempty payload, format already known, payload length not a multiple
of 4. -/
abbrev MixedThrow (s : SessionState) (m : List ℕ) : Prop :=
  readInt32LE m = 3 ∧ s.enableMixedAudio = true ∧ (m.drop 4).length ≠ 0 ∧
    s.audioFormat.isSome = true ∧ (m.drop 4).length % 4 ≠ 0

/-- The condition under which `handleParticipantAudio` throws after
`stats.participantAudioFrames` was already incremented: per-participant
audio enabled, well-formed envelope with nonempty audio, format known,
audio length not a multiple of 4. -/
abbrev ParticipantThrow (s : SessionState) (m : List ℕ) : Prop :=
  readInt32LE m = 5 ∧ s.enablePerParticipantAudio = true ∧
    1 ≤ (m.drop 4).length ∧
    1 + (m.drop 4).headD 0 ≤ (m.drop 4).length ∧
    ((m.drop 4).drop (1 + (m.drop 4).headD 0)).length ≠ 0 ∧
    s.audioFormat.isSome = true ∧
    ((m.drop 4).drop (1 + (m.drop 4).headD 0)).length % 4 ≠ 0

/-- How much one inbound message adds to the stats-counter sum: nothing
once closed or for empty messages, one for every other message — two
when an audio handler throws after its own counter was bumped (the
catch in `handleMessage` then also bumps `unknownFrames`). -/
def stepCounterDelta (s : SessionState) (m : List ℕ) : ℕ :=
  if s.closed = true then 0
  else if m.length = 0 then 0
  else if m.length < 4 then 1
  else if MixedThrow s m ∨ ParticipantThrow s m then 2 else 1

lemma dispatch_statsSum (env : SessionEnv) (s : SessionState) (m : List ℕ)
    (h4 : ¬ m.length < 4) :
    statsSum (dispatch env s m).1 = statsSum s + 1 ∧
    ((dispatch env s m).2 = false ↔
      (MixedThrow s m ∨ ParticipantThrow s m)) := by
  rw [dispatch]
  simp only [if_neg h4]
  by_cases ht1 : readInt32LE m = 1
  · simp only [if_pos ht1]
    exact ⟨handleJson_statsSum env s (m.drop 4),
      by simp [MixedThrow, ParticipantThrow, ht1]⟩
  · by_cases ht2 : readInt32LE m = 2
    · simp only [if_neg ht1, if_pos ht2]
      exact ⟨statsSum_bumpVideo s,
        by simp [MixedThrow, ParticipantThrow, ht2]⟩
    · by_cases ht3 : readInt32LE m = 3
      · simp only [if_neg ht1, if_neg ht2, if_pos ht3]
        obtain ⟨hstats, hiff⟩ := handleMixedAudio_step (bumpMixed s) (m.drop 4)
        constructor
        · rw [statsSum_congr hstats]
          exact statsSum_bumpMixed s
        · rw [hiff]
          constructor
          · rintro ⟨h1, h2, h3, h5⟩
            exact Or.inl ⟨ht3, h1, h2, h3, h5⟩
          · rintro (⟨_, h1, h2, h3, h5⟩ | ⟨h5, _⟩)
            · exact ⟨h1, h2, h3, h5⟩
            · rw [ht3] at h5
              cases h5
      · by_cases ht4 : readInt32LE m = 4
        · simp only [if_neg ht1, if_neg ht2, if_neg ht3, if_pos ht4]
          exact ⟨statsSum_bumpEncoded s,
            by simp [MixedThrow, ParticipantThrow, ht4]⟩
        · by_cases ht5 : readInt32LE m = 5
          · simp only [if_neg ht1, if_neg ht2, if_neg ht3, if_neg ht4,
              if_pos ht5]
            obtain ⟨hstats, hiff⟩ :=
              handleParticipantAudio_step env (bumpParticipant s) (m.drop 4)
            constructor
            · rw [statsSum_congr hstats]
              exact statsSum_bumpParticipant s
            · rw [hiff]
              constructor
              · rintro ⟨h1, h2, h3, h5, h6, h7⟩
                exact Or.inr ⟨ht5, h1, h2, h3, h5, h6, h7⟩
              · rintro (⟨h5, _⟩ | ⟨_, h1, h2, h3, h5, h6, h7⟩)
                · rw [ht5] at h5
                  cases h5
                · exact ⟨h1, h2, h3, h5, h6, h7⟩
          · simp only [if_neg ht1, if_neg ht2, if_neg ht3, if_neg ht4,
              if_neg ht5]
            exact ⟨statsSum_bumpUnknown s,
              by simp [MixedThrow, ParticipantThrow, ht3, ht5]⟩

/-- **C5 (amended).** Per-message counter law: a message arriving on a
closed session, or an empty message, changes no counter; a message of
length 1–3 — whose 4-byte header could **not** be read — still
increments the unknown-frames counter by one; a message whose header
was read increments the counter sum by exactly one, **except** when the
mixed- or participant-audio handler throws after its own counter was
already bumped (payload present, format known, length not a multiple of
4): the catch in `handleMessage` then also bumps `unknownFrames`, for a
total of two.  Hence the sum of the six counters does not, in general,
equal the number of frames whose header could be read. -/
theorem stats_counter_step (env : SessionEnv) (s : SessionState)
    (m : List ℕ) :
    statsSum (handleMessage env s m) = statsSum s + stepCounterDelta s m := by
  rw [handleMessage, stepCounterDelta]
  by_cases hcl : s.closed = true
  · simp only [if_pos hcl]
    omega
  · simp only [if_neg hcl]
    by_cases h0 : m.length = 0
    · simp only [if_pos h0]
      omega
    · simp only [if_neg h0]
      by_cases h4 : m.length < 4
      · rw [dispatch]
        simp only [if_pos h4]
        exact statsSum_bumpUnknown s
      · simp only [if_neg h4]
        obtain ⟨hsum, hiff⟩ := dispatch_statsSum env s m h4
        cases hres : dispatch env s m with
        | mk s2 ok =>
            rw [hres] at hsum hiff
            cases ok with
            | true =>
                have hnc : ¬(MixedThrow s m ∨ ParticipantThrow s m) := by
                  intro hc
                  simpa using hiff.mpr hc
                rw [if_neg hnc]
                exact hsum
            | false =>
                have hc : MixedThrow s m ∨ ParticipantThrow s m := hiff.mp rfl
                rw [if_pos hc]
                show statsSum (bumpUnknown s2) = statsSum s + 2
                rw [statsSum_bumpUnknown, hsum]

/-- The number of frames "accepted" in the claim's sense: those whose
4-byte little-endian type header could be read. -/
def acceptedFrameCount (msgs : List (List ℕ)) : ℕ :=
  (msgs.filter (fun m => decide (4 ≤ m.length))).length

/-- An oracle whose JSON parser always yields an `AudioFormatUpdate`
carrying `sampleRate: 16000`. -/
def fmtEnv : SessionEnv :=
  ⟨fun _ => some (audioFormatEvent { sampleRate := some (JsNum.val 16000) }),
   fun _ => ""⟩

/-- **C5 counterexample.**  Two frames, both with readable headers: a
JSON frame that installs an audio format, then a mixed-audio frame
whose 2-byte payload is not a multiple of 4.  The conversion throws
*after* `mixedAudioFrames` was incremented, and the catch in
`handleMessage` increments `unknownFrames` as well, so the counter sum
reaches 3 while only 2 frames were accepted — refuting the claimed
invariant `statsSum = accepted frames`. -/
theorem stats_counter_cex :
    statsSum (runMessages fmtEnv (initialSession true true [])
      [[1, 0, 0, 0], [3, 0, 0, 0, 9, 9]]) = 3 ∧
    acceptedFrameCount [[1, 0, 0, 0], [3, 0, 0, 0, 9, 9]] = 2 ∧
    statsSum (runMessages fmtEnv (initialSession true true [])
      [[1, 0, 0, 0], [3, 0, 0, 0, 9, 9]]) ≠
      acceptedFrameCount [[1, 0, 0, 0], [3, 0, 0, 0, 9, 9]] := by
  refine ⟨by decide, by decide, by decide⟩

/-- The post-drain invariant: a format is on record and both pending
buffers are empty. -/
def DrainedInv (s : SessionState) : Prop :=
  s.audioFormat.isSome = true ∧ s.pendingMixedAudio = [] ∧
    s.pendingParticipantAudio = []

/-- The writes a successful mixed drain appends, in queue order. -/
def mixedDrainLog (chunks : List (List ℕ)) : List (WriteTarget × List ℕ) :=
  chunks.map (fun c => (WriteTarget.mixed, convertF32Go c))

/-- The writes a successful participant drain appends: each observed
participant's queue in map order. -/
def participantDrainLog (entries : List (String × List (List ℕ))) :
    List (WriteTarget × List ℕ) :=
  entries.flatMap (fun e =>
    e.2.map (fun c => (WriteTarget.participant e.1, convertF32Go c)))

lemma flushMixedChunks_ok : ∀ (chunks : List (List ℕ)) (s : SessionState),
    (∀ c ∈ chunks, c.length % 4 = 0) →
    flushMixedChunks s chunks =
      ({ s with writeLog := s.writeLog ++ mixedDrainLog chunks }, true) := by
  intro chunks
  induction chunks with
  | nil =>
      intro s h
      simp [flushMixedChunks, mixedDrainLog]
  | cons c rest ih =>
      intro s h
      have hc : convertFloat32ToInt16 c = some (convertF32Go c) := by
        rw [convertFloat32ToInt16, if_pos (h c (by simp))]
      rw [flushMixedChunks, hc]
      dsimp only
      rw [ih _ (fun d hd => h d (List.mem_cons_of_mem _ hd))]
      simp [writeMixed, mixedDrainLog]

lemma flushParticipantChunks_ok (pid : String) :
    ∀ (chunks : List (List ℕ)) (s : SessionState),
    (∀ c ∈ chunks, c.length % 4 = 0) →
    flushParticipantChunks pid s chunks =
      ({ s with writeLog := s.writeLog ++
          chunks.map (fun c => (WriteTarget.participant pid, convertF32Go c)) },
        true) := by
  intro chunks
  induction chunks with
  | nil =>
      intro s h
      simp [flushParticipantChunks]
  | cons c rest ih =>
      intro s h
      have hc : convertFloat32ToInt16 c = some (convertF32Go c) := by
        rw [convertFloat32ToInt16, if_pos (h c (by simp))]
      rw [flushParticipantChunks, hc]
      dsimp only
      rw [ih _ (fun d hd => h d (List.mem_cons_of_mem _ hd))]
      simp [writeParticipant]

lemma ensureMixedAudioWriter_writeLog (s : SessionState)
    (fmt : NormAudioFormat) :
    (ensureMixedAudioWriter s fmt).writeLog = s.writeLog := by
  rw [ensureMixedAudioWriter]
  split <;> rfl

lemma ensureParticipantWriter_writeLog (s : SessionState) (pid : String)
    (fmt : NormAudioFormat) :
    (ensureParticipantWriter s pid fmt).1.writeLog = s.writeLog := by
  rw [ensureParticipantWriter]
  cases h : assocGet s.participantWriters pid with
  | some l => rfl
  | none =>
      dsimp only
      cases h2 : assocGet s.participantLabels pid with
      | some l => rfl
      | none => rfl

lemma flushParticipantQueues_ok (fmt : NormAudioFormat) :
    ∀ (entries : List (String × List (List ℕ))) (s : SessionState),
    (∀ e ∈ entries, ∀ c ∈ e.2, c.length % 4 = 0) →
    (flushParticipantQueues fmt s entries).2 = true ∧
    (flushParticipantQueues fmt s entries).1.writeLog =
      s.writeLog ++ participantDrainLog entries := by
  intro entries
  induction entries with
  | nil =>
      intro s h
      simp [flushParticipantQueues, participantDrainLog]
  | cons e rest ih =>
      intro s h
      obtain ⟨pid, buffers⟩ := e
      rw [flushParticipantQueues]
      by_cases hb : buffers.isEmpty
      · rw [if_pos hb]
        have hb' : buffers = [] := List.isEmpty_iff.mp hb
        obtain ⟨h1, h2⟩ := ih s (fun d hd => h d (List.mem_cons_of_mem _ hd))
        refine ⟨h1, ?_⟩
        rw [h2]
        simp [participantDrainLog, hb']
      · rw [if_neg hb]
        dsimp only
        rw [flushParticipantChunks_ok pid buffers _
          (fun c hc => h (pid, buffers) (by simp) c hc)]
        dsimp only
        obtain ⟨h1, h2⟩ := ih _ (fun d hd => h d (List.mem_cons_of_mem _ hd))
        refine ⟨h1, ?_⟩
        rw [h2]
        dsimp only
        rw [ensureParticipantWriter_writeLog]
        simp [participantDrainLog]

lemma ensureMixedAudioWriter_proj (s : SessionState) (fmt : NormAudioFormat) :
    (ensureMixedAudioWriter s fmt).pendingMixedAudio = s.pendingMixedAudio ∧
    (ensureMixedAudioWriter s fmt).pendingParticipantAudio =
      s.pendingParticipantAudio ∧
    (ensureMixedAudioWriter s fmt).audioFormat = s.audioFormat ∧
    (ensureMixedAudioWriter s fmt).writeLog = s.writeLog := by
  rw [ensureMixedAudioWriter]
  split <;> exact ⟨rfl, rfl, rfl, rfl⟩

lemma flushParticipantQueues_drain (fmt : NormAudioFormat)
    (entries : List (String × List (List ℕ)))
    (h : ∀ e ∈ entries, ∀ c ∈ e.2, c.length % 4 = 0) (st : SessionState) :
    (flushParticipantQueues fmt st entries).2 = true ∧
    (flushParticipantQueues fmt st entries).1.writeLog =
      st.writeLog ++ participantDrainLog entries :=
  flushParticipantQueues_ok fmt entries st h

lemma flushParticipantQueues_proj (fmt : NormAudioFormat)
    (entries : List (String × List (List ℕ))) (st : SessionState) :
    (flushParticipantQueues fmt st entries).1.pendingMixedAudio =
      st.pendingMixedAudio ∧
    (flushParticipantQueues fmt st entries).1.audioFormat = st.audioFormat := by
  obtain ⟨hq, hpq⟩ := flushParticipantQueues_quiet fmt entries st
  exact ⟨hpq.1, hq.2.2.2.2.2.1⟩

lemma flushParticipantQueues_pair (fmt : NormAudioFormat)
    (entries : List (String × List (List ℕ)))
    (h : ∀ e ∈ entries, ∀ c ∈ e.2, c.length % 4 = 0) (st : SessionState) :
    flushParticipantQueues fmt st entries =
      ((flushParticipantQueues fmt st entries).1, true) := by
  have h2 := (flushParticipantQueues_ok fmt entries st h).1
  rw [← h2]

lemma flushPendingAudio_ok (s : SessionState) (fmt : NormAudioFormat)
    (hm : s.enableMixedAudio = true)
    (hp : s.enablePerParticipantAudio = true)
    (hmix : ∀ c ∈ s.pendingMixedAudio, c.length % 4 = 0)
    (hpart : ∀ e ∈ s.pendingParticipantAudio, ∀ c ∈ e.2, c.length % 4 = 0) :
    (flushPendingAudio s fmt).2 = true ∧
    (flushPendingAudio s fmt).1.pendingMixedAudio = [] ∧
    (flushPendingAudio s fmt).1.pendingParticipantAudio = [] ∧
    (flushPendingAudio s fmt).1.audioFormat = s.audioFormat ∧
    (flushPendingAudio s fmt).1.writeLog =
      s.writeLog ++ mixedDrainLog s.pendingMixedAudio ++
        participantDrainLog s.pendingParticipantAudio := by
  obtain ⟨hep1, hep2, hep3, hep4⟩ := ensureMixedAudioWriter_proj s fmt
  by_cases hme : s.pendingMixedAudio.isEmpty
  · have hm0 : s.pendingMixedAudio = [] := List.isEmpty_iff.mp hme
    by_cases hpe : s.pendingParticipantAudio.isEmpty
    · have hp0 : s.pendingParticipantAudio = [] := List.isEmpty_iff.mp hpe
      simp [flushPendingAudio, hm0, hp0, mixedDrainLog, participantDrainLog]
    · simp only [flushPendingAudio]
      rw [if_neg (show ¬(¬s.pendingMixedAudio.isEmpty = true ∧
        s.enableMixedAudio = true) from fun hcon => hcon.1 hme)]
      simp [hpe, hp]
      rw [flushParticipantQueues_pair fmt s.pendingParticipantAudio hpart]
      simp [hpe, hp, hm0, mixedDrainLog,
        flushParticipantQueues_drain fmt s.pendingParticipantAudio hpart,
        flushParticipantQueues_proj fmt s.pendingParticipantAudio]
  · have hfm := flushMixedChunks_ok s.pendingMixedAudio
      (ensureMixedAudioWriter s fmt) hmix
    by_cases hpe : s.pendingParticipantAudio.isEmpty
    · have hp0 : s.pendingParticipantAudio = [] := List.isEmpty_iff.mp hpe
      simp only [flushPendingAudio]
      rw [hfm]
      simp [hme, hm, hp0, hep1, hep2, hep3, hep4, participantDrainLog]
    · simp only [flushPendingAudio]
      rw [hfm]
      simp [hme, hm, hpe, hp, hep1, hep2, hep3, hep4]
      rw [flushParticipantQueues_pair fmt s.pendingParticipantAudio hpart]
      simp [hme, hm, hpe, hp, hep1, hep2, hep3, hep4,
        flushParticipantQueues_drain fmt s.pendingParticipantAudio hpart,
        flushParticipantQueues_proj fmt s.pendingParticipantAudio]

lemma flushPendingAudio_empty (s : SessionState) (fmt : NormAudioFormat)
    (h1 : s.pendingMixedAudio = []) (h2 : s.pendingParticipantAudio = []) :
    flushPendingAudio s fmt = (s, true) := by
  simp [flushPendingAudio, h1, h2]

lemma flushPendingAudio_noop_inv (t : SessionState) (n : NormAudioFormat)
    (h1 : t.pendingMixedAudio = []) (h2 : t.pendingParticipantAudio = []) :
    DrainedInv (flushPendingAudio { t with audioFormat := some n } n).1 := by
  have hfl := flushPendingAudio_empty { t with audioFormat := some n } n h1 h2
  rw [hfl]
  exact ⟨rfl, h1, h2⟩

lemma drainedInv_setMeetingUrl (t : SessionState) (u : String)
    (h : DrainedInv t) : DrainedInv { t with meetingUrl := some u } := h

lemma drainedInv_setBotName (t : SessionState) (b : String)
    (h : DrainedInv t) : DrainedInv { t with botName := some b } := h

lemma handleAudioFormatUpdate_inv (t : SessionState) (ev : RecEvent)
    (h : DrainedInv t) : DrainedInv (handleAudioFormatUpdate t ev).1 := by
  obtain ⟨hf, h1, h2⟩ := h
  rw [handleAudioFormatUpdate]
  cases hfo : ev.format with
  | none => exact ⟨hf, h1, h2⟩
  | some f =>
      dsimp only
      cases hsr : f.sampleRate with
      | none => exact ⟨hf, h1, h2⟩
      | some sr =>
          dsimp only
          exact flushPendingAudio_noop_inv t _ h1 h2

lemma foldl_preserve {α : Type} (P : SessionState → Prop)
    (f : SessionState → α → SessionState)
    (hf : ∀ st c, P st → P (f st c)) :
    ∀ (l : List α) (s : SessionState), P s → P (l.foldl f s) := by
  intro l
  induction l with
  | nil => intro s h; exact h
  | cons c cs ih =>
      intro s h
      rw [List.foldl_cons]
      exact ih _ (hf s c h)

lemma handleUsersUpdate_inv (t : SessionState) (ev : RecEvent)
    (h : DrainedInv t) : DrainedInv (handleUsersUpdate t ev) := by
  simp only [handleUsersUpdate]
  refine foldl_preserve DrainedInv _ ?_ _ t h
  intro st c hst
  rcases c with _ | cand
  · exact hst
  · rcases hdid : cand.deviceId with _ | did
    · simp [hdid]
      exact hst
    · by_cases hemp : did.isEmpty
      · simp [hdid, hemp]
        exact hst
      · simp [hdid, hemp]
        exact hst

lemma closeSession_inv (t : SessionState) (h : DrainedInv t) :
    DrainedInv (closeSession t) := by
  rw [closeSession]
  split
  · exact h
  · exact h

lemma handleMeetingStatusChange_inv (t : SessionState) (ev : RecEvent)
    (h : DrainedInv t) : DrainedInv (handleMeetingStatusChange t ev) := by
  rw [handleMeetingStatusChange]
  split
  · exact closeSession_inv t h
  · exact h

lemma applyMetadata_inv (t : SessionState) (ev : RecEvent)
    (h : DrainedInv t) : DrainedInv (applyMetadata t ev).1 := by
  simp only [applyMetadata]
  repeat' split
  all_goals
    repeat' (first
      | exact h
      | apply handleAudioFormatUpdate_inv
      | apply handleUsersUpdate_inv
      | apply handleMeetingStatusChange_inv
      | apply drainedInv_setMeetingUrl
      | apply drainedInv_setBotName)

lemma handleJson_inv (env : SessionEnv) (t : SessionState) (p : List ℕ)
    (h : DrainedInv t) : DrainedInv (handleJson env t p) := by
  rw [handleJson]
  cases hp : env.parse p with
  | none => exact h
  | some ev => exact applyMetadata_inv _ ev h

lemma handleMixedAudio_inv (t : SessionState) (p : List ℕ)
    (h : DrainedInv t) : DrainedInv (handleMixedAudio t p).1 := by
  obtain ⟨hf, h1, h2⟩ := h
  rw [handleMixedAudio]
  by_cases he : t.enableMixedAudio
  · by_cases hl : p.length = 0
    · simp only [he, hl]
      exact ⟨hf, h1, h2⟩
    · obtain ⟨fmtv, hfmt⟩ := Option.isSome_iff_exists.mp hf
      simp only [he, hl, hfmt]
      obtain ⟨hqc, hqp⟩ := ensureMixedAudioWriter_quiet t fmtv
      have hinv1 : DrainedInv (ensureMixedAudioWriter t fmtv) :=
        ⟨by rw [hqc.2.2.2.2.2.1]; exact hf, by rw [hqp.1]; exact h1,
         by rw [hqp.2]; exact h2⟩
      cases hc : convertFloat32ToInt16 p with
      | some pcm =>
          simp only []
          split
        <;> first
          | exact ⟨hf, h1, h2⟩
          | exact hinv1
          | exact hinv1
      | none =>
          simp only []
          split <;> first | exact ⟨hf, h1, h2⟩ | exact hinv1
  · simp only [he]
    exact ⟨hf, h1, h2⟩

lemma handleParticipantAudio_inv (env : SessionEnv) (t : SessionState)
    (p : List ℕ) (h : DrainedInv t) :
    DrainedInv (handleParticipantAudio env t p).1 := by
  obtain ⟨hf, h1, h2⟩ := h
  rw [handleParticipantAudio]
  by_cases he : t.enablePerParticipantAudio
  · by_cases hl : p.length < 1
    · simp only [he, hl]
      exact ⟨hf, h1, h2⟩
    · by_cases hid : p.length < 1 + p.headD 0
      · simp only [he, hl, hid]
        split <;> exact ⟨hf, h1, h2⟩
      · by_cases ha : (p.drop (1 + p.headD 0)).length = 0
        · simp only [he, hl, hid, ha]
          split <;> first | skip | split
          all_goals exact ⟨hf, h1, h2⟩
        · obtain ⟨fmtv, hfmt⟩ := Option.isSome_iff_exists.mp hf
          simp only [he, hl, hid, ha, hfmt]
          obtain ⟨hqc, hqp⟩ := ensureParticipantWriter_quiet t
            (env.utf8 ((p.drop 1).take (p.headD 0))) fmtv
          have hinv1 : DrainedInv (ensureParticipantWriter t
              (env.utf8 ((p.drop 1).take (p.headD 0))) fmtv).1 :=
            ⟨by rw [hqc.2.2.2.2.2.1]; exact hf, by rw [hqp.1]; exact h1,
             by rw [hqp.2]; exact h2⟩
          repeat' split
          all_goals first
            | exact ⟨hf, h1, h2⟩
            | exact hinv1
  · simp only [he]
    exact ⟨hf, h1, h2⟩

lemma dispatch_inv (env : SessionEnv) (t : SessionState) (m : List ℕ)
    (h : DrainedInv t) : DrainedInv (dispatch env t m).1 := by
  rw [dispatch]
  by_cases h4 : m.length < 4
  · simp only [h4]
    exact h
  · simp only [h4]
    by_cases ht1 : readInt32LE m = 1
    · simp only [ht1]
      exact handleJson_inv env t _ h
    · by_cases ht2 : readInt32LE m = 2
      · simp only [ht1, ht2]
        exact h
      · by_cases ht3 : readInt32LE m = 3
        · simp only [ht1, ht2, ht3]
          exact handleMixedAudio_inv _ _ h
        · by_cases ht4 : readInt32LE m = 4
          · simp only [ht1, ht2, ht3, ht4]
            exact h
          · by_cases ht5 : readInt32LE m = 5
            · simp only [ht1, ht2, ht3, ht4, ht5]
              exact handleParticipantAudio_inv env _ _ h
            · simp only [ht1, ht2, ht3, ht4, ht5]
              exact h

lemma handleMessage_inv (env : SessionEnv) (t : SessionState) (m : List ℕ)
    (h : DrainedInv t) : DrainedInv (handleMessage env t m) := by
  rw [handleMessage]
  by_cases hcl : t.closed = true
  · simp only [hcl]
    exact h
  · simp only [hcl]
    by_cases h0 : m.length = 0
    · simp only [h0]
      exact h
    · simp only [h0]
      have hd := dispatch_inv env t m h
      cases hres : dispatch env t m with
      | mk s2 ok =>
          rw [hres] at hd
          cases ok with
          | true => exact hd
          | false => exact hd

lemma handleAudioFormatUpdate_drain (s : SessionState) (n : NormAudioFormat)
    (hm : s.enableMixedAudio = true)
    (hp : s.enablePerParticipantAudio = true)
    (hmix : ∀ c ∈ s.pendingMixedAudio, c.length % 4 = 0)
    (hpart : ∀ e ∈ s.pendingParticipantAudio, ∀ c ∈ e.2, c.length % 4 = 0) :
    (flushPendingAudio { s with audioFormat := some n } n).2 = true ∧
    DrainedInv (flushPendingAudio { s with audioFormat := some n } n).1 ∧
    (flushPendingAudio { s with audioFormat := some n } n).1.writeLog =
      s.writeLog ++ mixedDrainLog s.pendingMixedAudio ++
        participantDrainLog s.pendingParticipantAudio := by
  obtain ⟨o1, o2, o3, o4, o5⟩ :=
    flushPendingAudio_ok { s with audioFormat := some n } n hm hp hmix hpart
  refine ⟨o1, ⟨?_, o2, o3⟩, o5⟩
  rw [o4]
  rfl

/-- **C4 (amended).** When an `AudioFormatUpdate` with a number-typed
`sampleRate` arrives (both audio features on) and every queued chunk's
byte length is a multiple of 4, the pending buffers are drained
synchronously and in insertion order — all mixed chunks first, then
each participant's queue in the order participants were first queued —
the converted PCM being appended to the write log; both pending buffers
are then empty, a format is on record, and this drained configuration
is preserved by every subsequent message for the rest of the session.
(Without the multiple-of-4 proviso the drain can abort part-way: the
conversion throw skips the clears, so the pending buffers need **not**
remain empty — see the counterexample.) -/
theorem pending_drain_once (s : SessionState) (f : WireAudioFormat)
    (sr : JsNum)
    (hm : s.enableMixedAudio = true)
    (hp : s.enablePerParticipantAudio = true)
    (hsr : f.sampleRate = some sr)
    (hmix : ∀ c ∈ s.pendingMixedAudio, c.length % 4 = 0)
    (hpart : ∀ e ∈ s.pendingParticipantAudio, ∀ c ∈ e.2, c.length % 4 = 0) :
    ((handleAudioFormatUpdate s (audioFormatEvent f)).2 = true ∧
      DrainedInv (handleAudioFormatUpdate s (audioFormatEvent f)).1 ∧
      (handleAudioFormatUpdate s (audioFormatEvent f)).1.writeLog =
        s.writeLog ++ mixedDrainLog s.pendingMixedAudio ++
          participantDrainLog s.pendingParticipantAudio) ∧
    (∀ (env : SessionEnv) (t : SessionState) (m : List ℕ),
      DrainedInv t → DrainedInv (handleMessage env t m)) := by
  constructor
  · rw [handleAudioFormatUpdate]
    simp only [audioFormatEvent]
    rw [hsr]
    dsimp only
    exact handleAudioFormatUpdate_drain s _ hm hp hmix hpart
  · intro env t m ht
    exact handleMessage_inv env t m ht

/-- A session with one queued mixed chunk and one queued participant
chunk, both of well-formed (multiple-of-4) length. -/
def drainSampleState : SessionState :=
  { initialSession true true [] with
      pendingMixedAudio := [[0, 0, 0, 0]]
      pendingParticipantAudio := [("p", [[1, 2, 3, 4]])] }

/-- Witness for C4 (amended): on `drainSampleState` the hypotheses hold
and the drain succeeds, leaving the drained configuration. -/
theorem pending_drain_once_witness :
    drainSampleState.enableMixedAudio = true ∧
    (∀ c ∈ drainSampleState.pendingMixedAudio, c.length % 4 = 0) ∧
    (∀ e ∈ drainSampleState.pendingParticipantAudio, ∀ c ∈ e.2,
      c.length % 4 = 0) ∧
    ((handleAudioFormatUpdate drainSampleState
        (audioFormatEvent { sampleRate := some (JsNum.val 16000) })).2 =
          true ∧
      DrainedInv (handleAudioFormatUpdate drainSampleState
        (audioFormatEvent { sampleRate := some (JsNum.val 16000) })).1 ∧
      (handleAudioFormatUpdate drainSampleState
        (audioFormatEvent { sampleRate := some (JsNum.val 16000) })).1.writeLog =
        drainSampleState.writeLog ++
          mixedDrainLog drainSampleState.pendingMixedAudio ++
          participantDrainLog drainSampleState.pendingParticipantAudio) :=
  ⟨rfl, by decide, by decide,
    (pending_drain_once drainSampleState
      { sampleRate := some (JsNum.val 16000) } (JsNum.val 16000)
      rfl rfl rfl (by decide) (by decide)).1⟩

/-- **C4 counterexample.** A mixed payload of length 2 is queued before
any format; the first valid `AudioFormatUpdate` then starts the drain,
but the chunk's conversion throws (2 is not a multiple of 4) after the
format was already recorded and **before** the queue was cleared.  The
session ends the message with a format on record and a nonempty pending
mixed buffer that is never drained again — refuting the claim that the
pending buffers are empty from the first valid format on. -/
theorem pending_drain_cex :
    (runMessages fmtEnv (initialSession true true [])
      [[3, 0, 0, 0, 7, 7], [1, 0, 0, 0]]).audioFormat.isSome = true ∧
    (runMessages fmtEnv (initialSession true true [])
      [[3, 0, 0, 0, 7, 7], [1, 0, 0, 0]]).pendingMixedAudio = [[7, 7]] := by
  refine ⟨by decide, by decide⟩
